import Mathlib

/-!
Formal model of the mastra observability subsystem:
the in-memory span store (`ObservabilityInMemory`, `packages/core/src/storage/domains/observability/inmemory.ts`)
and the trace query-parameter codec (`packages/core/src/storage/schemas/observability.ts`,
qs bracket-notation revision).

Modelling conventions:
- JS `Date` timestamps are `Int` milliseconds; `Date.prototype.toISOString` /
  `new Date(string)` are modelled by an abstract injective rendering (`isoStr` /
  `jsDateParse`); no theorem depends on the concrete ISO format.
- JS `Map` is an insertion-ordered association list; `Map.set` on an existing key
  updates the entry in place.
- JSONB leaf values that travel through the query string are modelled as the
  strings they are rendered to (qs produces strings at every leaf).
- `null`/`undefined` are both modelled as `Option.none` where the code treats them
  alike; where the code distinguishes them this is noted at the definition.
-/

namespace Obs

/-- Error payload of a span (`error` jsonb column). A stored error is a JS object
and therefore always truthy; presence (`Option.isSome`) models truthiness. -/
structure ErrorInfo where
  message : String
deriving DecidableEq

/-- Free-form string-keyed JSON map (metadata / scope / versionInfo / attributes),
as an insertion-ordered association list, as JS objects are. -/
abbrev KV := List (String × String)

/-- JS object property lookup on a `KV` map. -/
def lookupKV (k : String) (m : KV) : Option String :=
  match m.find? (fun kv => kv.1 == k) with
  | some kv => some kv.2
  | none => none

/-- Span record, per the `SpanRecord` interface of `packages/core/src/storage/types.ts`
and `SPAN_SCHEMA` (`packages/core/src/storage/constants.ts`); jsonb-typed values
(`attributes`, `links`, `input`, `output`, ...) are carried as their wire strings. -/
structure SpanRecord where
  traceId : String
  spanId : String
  parentSpanId : Option String
  name : String
  spanType : String
  entityType : Option String
  entityId : Option String
  entityName : Option String
  userId : Option String
  organizationId : Option String
  resourceId : Option String
  runId : Option String
  sessionId : Option String
  threadId : Option String
  requestId : Option String
  environment : Option String
  source : Option String
  serviceName : Option String
  deploymentId : Option String
  versionInfo : Option KV
  scope : Option KV
  metadata : Option KV
  attributes : Option KV
  tags : Option (List String)
  links : Option String
  input : Option String
  output : Option String
  error : Option ErrorInfo
  startedAt : Int
  endedAt : Option Int
  createdAt : Int
  updatedAt : Int
  isEvent : Bool
deriving DecidableEq

/-- Filter argument of `getTracesPaginated` (`TracesPaginatedArg['filters']`), with
scalar values as the raw strings the engine compares against. -/
structure TracesFilter where
  spanType : Option String
  entityType : Option String
  entityId : Option String
  entityName : Option String
  status : Option String
  userId : Option String
  organizationId : Option String
  resourceId : Option String
  runId : Option String
  sessionId : Option String
  threadId : Option String
  requestId : Option String
  environment : Option String
  source : Option String
  serviceName : Option String
  deploymentId : Option String
  tags : Option (List String)
  metadata : Option KV
  scope : Option KV
  versionInfo : Option KV
deriving DecidableEq

/-- Filter with every field absent. -/
def emptyFilter : TracesFilter where
  spanType := none
  entityType := none
  entityId := none
  entityName := none
  status := none
  userId := none
  organizationId := none
  resourceId := none
  runId := none
  sessionId := none
  threadId := none
  requestId := none
  environment := none
  source := none
  serviceName := none
  deploymentId := none
  tags := none
  metadata := none
  scope := none
  versionInfo := none

/-- Date range of the engine's pagination argument (`pagination.dateRange`). The
source field `end` is a Lean keyword and is called `stop` here. -/
structure DateRange where
  start : Option Int
  stop : Option Int
deriving DecidableEq

/-- Pagination argument of `getTracesPaginated` (`TracesPaginatedArg['pagination']`). -/
structure PaginationArgs where
  page : Option Nat
  perPage : Option Nat
  dateRange : Option DateRange
deriving DecidableEq

/-- Pagination info returned by `getTracesPaginated`. -/
structure PaginationInfo where
  total : Nat
  page : Nat
  perPage : Nat
  hasMore : Bool
deriving DecidableEq

/-- Result of `getTracesPaginated`. -/
structure PaginatedResult where
  spans : List SpanRecord
  pagination : PaginationInfo
deriving DecidableEq

/-- The backing `Map<string, SpanRecord>` as an insertion-ordered association list. -/
abbrev Collection := List (String × SpanRecord)

/-- `Map.prototype.values()` in insertion order. -/
def values (c : Collection) : List SpanRecord := c.map (fun e => e.2)

/-- `Map.prototype.get`. -/
def jsMapGet (k : String) (c : Collection) : Option SpanRecord :=
  match c.find? (fun e => e.1 == k) with
  | some e => some e.2
  | none => none

/-- `Map.prototype.set`: update in place if the key exists, else append. -/
def jsMapSet (k : String) (v : SpanRecord) : Collection → Collection
  | [] => [(k, v)]
  | (k', v') :: rest => if k' = k then (k, v) :: rest else (k', v') :: jsMapSet k v rest

/-- `Map.prototype.delete`. -/
def jsMapDelete (k : String) (c : Collection) : Collection :=
  c.filter (fun e => e.1 ≠ k)

/-- `generateId({traceId, spanId})`: the composite map key. -/
def generateId (traceId spanId : String) : String :=
  traceId ++ "-" ++ spanId

/-- A thrown `MastraError`, identified by its id. -/
structure MErr where
  id : String
deriving DecidableEq

/-- Truthiness-guarded scalar filter: `if (filter?.x && span.x !== filter.x) return false`.
An absent filter value and the empty string (JS falsy) disable the check. -/
def scalarPass (fv : Option String) (sv : Option String) : Bool :=
  match fv with
  | none => true
  | some v => if v = "" then true else sv == some v

/-- One span against one filter: the body of the predicate in `filterSpansByFilter`. -/
def spanPassesFilter (f : TracesFilter) (s : SpanRecord) : Bool :=
  scalarPass f.spanType (some s.spanType) &&
  scalarPass f.entityType s.entityType &&
  scalarPass f.entityId s.entityId &&
  scalarPass f.entityName s.entityName &&
  (match f.status with
   | none => true
   | some st =>
     if st = "" then true
     else (if s.error.isSome then "error" else if s.endedAt = none then "running" else "success") == st) &&
  scalarPass f.userId s.userId &&
  scalarPass f.organizationId s.organizationId &&
  scalarPass f.resourceId s.resourceId &&
  scalarPass f.runId s.runId &&
  scalarPass f.sessionId s.sessionId &&
  scalarPass f.threadId s.threadId &&
  scalarPass f.requestId s.requestId &&
  scalarPass f.environment s.environment &&
  scalarPass f.source s.source &&
  scalarPass f.serviceName s.serviceName &&
  scalarPass f.deploymentId s.deploymentId &&
  (match f.tags with
   | none => true
   | some ts =>
     if ts.length > 0 then
       match s.tags with
       | none => false
       | some tg => ts.any (fun t => tg.contains t)
     else true) &&
  (match f.metadata with
   | none => true
   | some m => m.all (fun kv => (match s.metadata with | none => none | some sm => lookupKV kv.1 sm) == some kv.2)) &&
  (match f.scope with
   | none => true
   | some m => m.all (fun kv => (match s.scope with | none => none | some sm => lookupKV kv.1 sm) == some kv.2)) &&
  (match f.versionInfo with
   | none => true
   | some m => m.all (fun kv => (match s.versionInfo with | none => none | some sm => lookupKV kv.1 sm) == some kv.2))

/-- `filterSpansByFilter(spans, filter)`. -/
def filterSpansByFilter (spans : List SpanRecord) (f : Option TracesFilter) : List SpanRecord :=
  spans.filter (fun s =>
    match f with
    | none => true
    | some ff => spanPassesFilter ff s)

/-- `filterForRootSpans(spans)`: keeps spans whose `parentSpanId === null`. -/
def filterForRootSpans (spans : List SpanRecord) : List SpanRecord :=
  spans.filter (fun s => s.parentSpanId == none)

/-- `filterSpansByDate(spans, startDate, endDate)`. -/
def filterSpansByDate (spans : List SpanRecord) (startDate endDate : Option Int) : List SpanRecord :=
  spans.filter (fun s =>
    (match startDate with
     | some d => !(decide (s.startedAt < d))
     | none => true) &&
    (match endDate with
     | some d => !(decide (s.startedAt > d))
     | none => true))

/-- `Array.prototype.slice(start, stop)` for `0 ≤ start ≤ stop`. -/
def sliceList (l : List SpanRecord) (start stop : Nat) : List SpanRecord :=
  (l.drop start).take (stop - start)

/-- `filterSpansByPagination(spans, pagination)`. -/
def filterSpansByPagination (spans : List SpanRecord) (pg : Option PaginationArgs) : List SpanRecord :=
  let page := (pg.bind (fun p => p.page)).getD 0
  let perPage := (pg.bind (fun p => p.perPage)).getD 10
  sliceList spans (page * perPage) (page * perPage + perPage)

/-- `getTracesPaginated({filters, pagination})`. -/
def getTracesPaginated (c : Collection) (filters : Option TracesFilter)
    (pg : Option PaginationArgs) : PaginatedResult :=
  let allRootSpans := filterForRootSpans (values c)
  let filteredRootSpans := filterSpansByFilter allRootSpans filters
  let startDate := (pg.bind (fun p => p.dateRange)).bind (fun d => d.start)
  let endDate := (pg.bind (fun p => p.dateRange)).bind (fun d => d.stop)
  let byDate := filterSpansByDate filteredRootSpans startDate endDate
  let total := byDate.length
  let page := (pg.bind (fun p => p.page)).getD 0
  let perPage := (pg.bind (fun p => p.perPage)).getD 10
  let strt := page * perPage
  let stop := strt + perPage
  { spans := filterSpansByPagination byDate pg,
    pagination := { total := total, page := page, perPage := perPage, hasMore := decide (stop < total) } }

/-- `createSpan(span)`: validates ids (JS falsy check, so the empty string counts as
missing), then stores under the composite key with fresh `createdAt`/`updatedAt`.
Returns the thrown error, if any, next to the resulting collection. -/
def createSpan (c : Collection) (span : SpanRecord) (now : Int) : Option MErr × Collection :=
  if span.spanId = "" then (some ⟨"OBSERVABILITY_SPAN_ID_REQUIRED"⟩, c)
  else if span.traceId = "" then (some ⟨"OBSERVABILITY_TRACE_ID_REQUIRED"⟩, c)
  else
    let record := { span with createdAt := now, updatedAt := now }
    (none, jsMapSet (generateId span.traceId span.spanId) record c)

/-- `Partial<UpdateSpanRecord>` where `UpdateSpanRecord = Omit<CreateSpanRecord,
'spanId' | 'traceId'>` and `CreateSpanRecord = Omit<SpanRecord, 'createdAt' |
'updatedAt'>` (`packages/core/src/storage/types.ts`): every span field except the
two ids and the two database timestamps may appear in a partial update. An outer
`none` means the key is absent from the partial update. -/
structure UpdateSpanRecord where
  parentSpanId : Option (Option String)
  name : Option String
  spanType : Option String
  entityType : Option (Option String)
  entityId : Option (Option String)
  entityName : Option (Option String)
  userId : Option (Option String)
  organizationId : Option (Option String)
  resourceId : Option (Option String)
  runId : Option (Option String)
  sessionId : Option (Option String)
  threadId : Option (Option String)
  requestId : Option (Option String)
  environment : Option (Option String)
  source : Option (Option String)
  serviceName : Option (Option String)
  deploymentId : Option (Option String)
  versionInfo : Option (Option KV)
  scope : Option (Option KV)
  metadata : Option (Option KV)
  attributes : Option (Option KV)
  tags : Option (Option (List String))
  links : Option (Option String)
  input : Option (Option String)
  output : Option (Option String)
  error : Option (Option ErrorInfo)
  startedAt : Option Int
  endedAt : Option (Option Int)
  isEvent : Option Bool
deriving DecidableEq

/-- Partial update with no field present. -/
def emptyUpdate : UpdateSpanRecord where
  parentSpanId := none
  name := none
  spanType := none
  entityType := none
  entityId := none
  entityName := none
  userId := none
  organizationId := none
  resourceId := none
  runId := none
  sessionId := none
  threadId := none
  requestId := none
  environment := none
  source := none
  serviceName := none
  deploymentId := none
  versionInfo := none
  scope := none
  metadata := none
  attributes := none
  tags := none
  links := none
  input := none
  output := none
  error := none
  startedAt := none
  endedAt := none
  isEvent := none

/-- Object spread `{...span, ...updates, updatedAt: new Date()}`: every key present
in the partial update overwrites the stored field. -/
def applyUpdates (r : SpanRecord) (u : UpdateSpanRecord) (now : Int) : SpanRecord :=
  { r with
    parentSpanId := u.parentSpanId.getD r.parentSpanId
    name := u.name.getD r.name
    spanType := u.spanType.getD r.spanType
    entityType := u.entityType.getD r.entityType
    entityId := u.entityId.getD r.entityId
    entityName := u.entityName.getD r.entityName
    userId := u.userId.getD r.userId
    organizationId := u.organizationId.getD r.organizationId
    resourceId := u.resourceId.getD r.resourceId
    runId := u.runId.getD r.runId
    sessionId := u.sessionId.getD r.sessionId
    threadId := u.threadId.getD r.threadId
    requestId := u.requestId.getD r.requestId
    environment := u.environment.getD r.environment
    source := u.source.getD r.source
    serviceName := u.serviceName.getD r.serviceName
    deploymentId := u.deploymentId.getD r.deploymentId
    versionInfo := u.versionInfo.getD r.versionInfo
    scope := u.scope.getD r.scope
    metadata := u.metadata.getD r.metadata
    attributes := u.attributes.getD r.attributes
    tags := u.tags.getD r.tags
    links := u.links.getD r.links
    input := u.input.getD r.input
    output := u.output.getD r.output
    error := u.error.getD r.error
    startedAt := u.startedAt.getD r.startedAt
    endedAt := u.endedAt.getD r.endedAt
    isEvent := u.isEvent.getD r.isEvent
    updatedAt := now }

/-- `updateSpan({spanId, traceId, updates})`. -/
def updateSpan (c : Collection) (traceId spanId : String) (u : UpdateSpanRecord)
    (now : Int) : Option MErr × Collection :=
  let id := generateId traceId spanId
  match jsMapGet id c with
  | none => (some ⟨"OBSERVABILITY_UPDATE_SPAN_NOT_FOUND"⟩, c)
  | some span => (none, jsMapSet id (applyUpdates span u now) c)

/-- `batchCreateSpans({records})`: sequential `createSpan`; a thrown error aborts the
remainder, keeping the writes already made. -/
def batchCreateSpans (c : Collection) (rs : List SpanRecord) (now : Int) : Option MErr × Collection :=
  match rs with
  | [] => (none, c)
  | r :: rest =>
    match createSpan c r now with
    | (some e, c') => (some e, c')
    | (none, c') => batchCreateSpans c' rest now

/-- One iteration of `batchDeleteTraces`: snapshot the spans of a trace, then delete
each by its composite id. -/
def deleteTrace (c : Collection) (tid : String) : Collection :=
  let spans := (values c).filter (fun s => s.traceId == tid)
  spans.foldl (fun acc s => jsMapDelete (generateId s.traceId s.spanId) acc) c

/-- `batchDeleteTraces({traceIds})`. -/
def batchDeleteTraces (c : Collection) (tids : List String) : Collection :=
  tids.foldl deleteTrace c

/-- The mutating operations named by the uniqueness claim. Each carries the clock
value current when it runs. -/
inductive Op where
  | create (r : SpanRecord) (now : Int)
  | batchCreate (rs : List SpanRecord) (now : Int)
  | update (traceId spanId : String) (u : UpdateSpanRecord) (now : Int)
  | deleteTraces (tids : List String)

/-- Effect of one operation on the collection (a thrown error leaves the state the
operation produced up to the throw). -/
def applyOp (c : Collection) : Op → Collection
  | .create r now => (createSpan c r now).2
  | .batchCreate rs now => (batchCreateSpans c rs now).2
  | .update t s u now => (updateSpan c t s u now).2
  | .deleteTraces tids => batchDeleteTraces c tids

/-- A sequence of operations, each a separate call against the store. -/
def runOps (c : Collection) : List Op → Collection
  | [] => c
  | op :: rest => runOps (applyOp c op) rest

/-- Derived status as the spec states it: `error != null` gives `"error"`, else
`endedAt == null` gives `"running"`, else `"success"`. -/
def derivedStatusSpec (error : Option ErrorInfo) (endedAt : Option Int) : String :=
  if error ≠ none then "error" else if endedAt = none then "running" else "success"

/-- Spec-side map-subset match: every filter pair present in the span's map with an
exactly-equal value. -/
def subsetMatch (m : KV) (sm : Option KV) : Bool :=
  m.all (fun kv => (match sm with | none => none | some mm => lookupKV kv.1 mm) == some kv.2)

/-- Spec-side tag match: the span has at least one of the requested tags. -/
def tagMatch (ts : List String) (stags : Option (List String)) : Bool :=
  match stags with
  | none => false
  | some tg => ts.any (fun t => tg.contains t)

/-- A string free of the `-` separator used by `generateId`. -/
def dashFree (s : String) : Bool :=
  s.data.all (fun c => c ≠ '-')

/-- Well-formed collection: every entry is keyed by the composite id of its record
and keys are unique (as in a JS `Map`). -/
def WfColl (c : Collection) : Prop :=
  (∀ e ∈ c, e.1 = generateId e.2.traceId e.2.spanId) ∧ (c.map (fun e => e.1)).Nodup

/-- All ids stored in the collection avoid the `-` separator. -/
def DashFreeColl (c : Collection) : Prop :=
  ∀ e ∈ c, dashFree e.2.traceId = true ∧ dashFree e.2.spanId = true

instance (c : Collection) : Decidable (WfColl c) :=
  decidable_of_iff ((∀ e ∈ c, e.1 = generateId e.2.traceId e.2.spanId) ∧
    (c.map (fun e : String × SpanRecord => e.1)).Nodup) Iff.rfl

instance (c : Collection) : Decidable (DashFreeColl c) :=
  decidable_of_iff (∀ e ∈ c, dashFree e.2.traceId = true ∧ dashFree e.2.spanId = true) Iff.rfl

/-- All ids an operation introduces or addresses avoid the `-` separator. -/
def dashFreeOp : Op → Bool
  | .create r _ => dashFree r.traceId && dashFree r.spanId
  | .batchCreate rs _ => rs.all (fun r => dashFree r.traceId && dashFree r.spanId)
  | .update t s _ _ => dashFree t && dashFree s
  | .deleteTraces _ => true

/-- Number of records stored for one `(traceId, spanId)` pair. -/
def pairCount (t s : String) (c : Collection) : Nat :=
  (c.filter (fun e => e.2.traceId = t ∧ e.2.spanId = s)).length

/-- A span record with the given ids and inert defaults everywhere else, used for
concrete scenarios. -/
def mkSpan (t s : String) : SpanRecord where
  traceId := t
  spanId := s
  parentSpanId := none
  name := "span"
  spanType := "AGENT_RUN"
  entityType := none
  entityId := none
  entityName := none
  userId := none
  organizationId := none
  resourceId := none
  runId := none
  sessionId := none
  threadId := none
  requestId := none
  environment := none
  source := none
  serviceName := none
  deploymentId := none
  versionInfo := none
  scope := none
  metadata := none
  attributes := none
  tags := none
  links := none
  input := none
  output := none
  error := none
  startedAt := 0
  endedAt := none
  createdAt := 0
  updatedAt := 0
  isEvent := false

end Obs

namespace QP

/-!
Query-parameter codec (`parseTracesQueryParams` / `serializeTracesParams`,
qs bracket-notation revision of `packages/core/src/storage/schemas/observability.ts`).

The wire format is modelled one level above percent-encoding: a query string is a
list of `(Path, QVal)` pairs, where `Path` is the (at most depth-2) bracket path of
one `key=value` pair and `QVal` records which string the value is the rendering of
(qs renders every leaf to a string; `QVal.num n` stands for the decimal rendering
of `n`, `QVal.date d` for the ISO rendering of the timestamp `d`, `QVal.bool b`
for `"true"`/`"false"`). These renderings are injective and `qs` percent-encoding
is lossless, so this level is a faithful image of the real query string.
-/

/-- A query-string value together with what it is the rendering of. -/
inductive QVal where
  | str (s : String)
  | num (n : Nat)
  | date (d : Int)
  | bool (b : Bool)
deriving DecidableEq

/-- A bracket path of nesting depth at most 2 (`key` or `key[sub]`), matching the
`depth: 2` option of `qs.parse`. -/
inductive Path where
  | flat (k : String)
  | nested (k sub : String)
deriving DecidableEq

/-- Top-level key of a path. -/
def topKey : Path → String
  | .flat k => k
  | .nested k _ => k

/-- A query: the ordered `key=value` pairs of the query string. -/
abbrev Query := List (Path × QVal)

/-- Numeric value of one decimal digit character. -/
def digitVal (c : Char) : Option Nat :=
  if '0' ≤ c ∧ c ≤ '9' then some (c.toNat - '0'.toNat) else none

/-- Decimal reading of a character list (kernel-reducible stand-in for
`String.toNat?`). -/
def natFromDigits : List Char → Option Nat
  | [] => none
  | cs => go cs 0
where
  go : List Char → Nat → Option Nat
    | [], acc => some acc
    | c :: rest, acc =>
      match digitVal c with
      | some d => go rest (acc * 10 + d)
      | none => none

/-- Decimal reading of a string. -/
def strToNat (s : String) : Option Nat := natFromDigits s.data

/-- Abstract injective model of `Date.prototype.toISOString`. -/
def isoStr (d : Int) : String := "@" ++ toString d

/-- Abstract model of `new Date(string)` returning a valid timestamp or not.
Inverts `isoStr`; strings a JS `Date` cannot parse (such as `"not-a-date"`) are
rejected here as well. -/
def jsDateParse (s : String) : Option Int :=
  match s.data with
  | '@' :: '-' :: rest => (natFromDigits rest).map (fun n => -(Int.ofNat n))
  | '@' :: rest => (natFromDigits rest).map Int.ofNat
  | _ => none

/-- The string a `QVal` renders to on the wire. -/
def qvalToStr : QVal → String
  | .str s => s
  | .num n => Nat.repr n
  | .bool true => "true"
  | .bool false => "false"
  | .date d => isoStr d

/-- Canonical decimal index test of qs (`String(parseInt(key, 10)) === key`). -/
def natParseCanon (s : String) : Option Nat :=
  match strToNat s with
  | some n => if Nat.repr n = s then some n else none
  | none => none

/-- qs turns a bracketed group into an array exactly when its keys are the canonical
indices `0..n-1` within `arrayLimit` (20, so at most 21 entries). -/
def isIndexLike (keys : List String) : Bool :=
  decide (keys.map natParseCanon = (List.range keys.length).map some) && decide (keys.length ≤ 21)

/-- A nested value produced by `qs.parse`: a scalar, an object of leaves, or an
array of leaves. -/
inductive PVal where
  | scalar (v : QVal)
  | obj (o : List (String × QVal))
  | arr (vs : List QVal)
deriving DecidableEq

/-- Pieces of one top-level key: values of flat occurrences and `(sub, value)`
pairs of bracketed occurrences. -/
def collect (k : String) (q : Query) : List (Sum QVal (String × QVal)) :=
  q.filterMap (fun pv =>
    match pv with
    | (.flat k', v) => if k' = k then some (.inl v) else none
    | (.nested k' sub, v) => if k' = k then some (.inr (sub, v)) else none)

/-- First-occurrence deduplication of an object's sub-keys (a JS object holds one
value per key; the duplicate-subkey corner of qs is not exercised here). -/
def dedupAssoc (l : List (String × QVal)) : List (String × QVal) :=
  l.foldl (fun acc kv => if acc.any (fun e => e.1 = kv.1) then acc else acc ++ [kv]) []

/-- Merge the pieces of one top-level key the way `qs.parse` does: a single flat
value stays scalar, repeated flat values form an array, bracketed subkeys form an
object, converted to an array when the subkeys are canonical indices. A mix of
flat and bracketed occurrences keeps the bracketed part (unused corner). -/
def buildPVal (pieces : List (Sum QVal (String × QVal))) : PVal :=
  match pieces with
  | [.inl v] => .scalar v
  | _ =>
    if pieces.all (fun p => p.isLeft) then
      .arr (pieces.filterMap (fun p => p.getLeft?))
    else
      let o := dedupAssoc (pieces.filterMap (fun p => p.getRight?))
      if isIndexLike (o.map (fun e => e.1)) then .arr (o.map (fun e => e.2)) else .obj o

/-- Association-list lookup (JS object property access). -/
def jsLookup {α : Type} (k : String) (m : List (String × α)) : Option α :=
  match m.find? (fun e => e.1 == k) with
  | some e => some e.2
  | none => none

/-- `qs.parse` with `depth: 2`: group the pairs by top-level key (first-occurrence
order; only key membership matters downstream) and merge each group. -/
def qsParse (q : Query) : List (String × PVal) :=
  ((q.map (fun t => topKey t.1)).dedup).map (fun k => (k, buildPVal (collect k q)))

/-- Derived span status enum (`spanStatusSchema`). -/
inductive SpanStatus where
  | success
  | error
  | running
deriving DecidableEq

def SpanStatus.toStr : SpanStatus → String
  | .success => "success"
  | .error => "error"
  | .running => "running"

def SpanStatus.ofStr (s : String) : Option SpanStatus :=
  if s = "success" then some .success
  else if s = "error" then some .error
  else if s = "running" then some .running
  else none

/-- Entity type enum (`spanEntityTypeSchema`). -/
inductive SpanEntityType where
  | agent
  | workflow
  | tool
  | network
  | step
deriving DecidableEq

def SpanEntityType.toStr : SpanEntityType → String
  | .agent => "agent"
  | .workflow => "workflow"
  | .tool => "tool"
  | .network => "network"
  | .step => "step"

def SpanEntityType.ofStr (s : String) : Option SpanEntityType :=
  if s = "agent" then some .agent
  else if s = "workflow" then some .workflow
  else if s = "tool" then some .tool
  else if s = "network" then some .network
  else if s = "step" then some .step
  else none

/-- Modelled from the spec: the `SpanType` native enum is declared in
`packages/core/src/observability`, outside this source snapshot; the spec lists
`WORKFLOW_RUN, AGENT_RUN, TOOL_CALL, …` as its members. Only string round-tripping
of members is relied on. -/
inductive SpanType where
  | workflowRun
  | agentRun
  | toolCall
deriving DecidableEq

def SpanType.toStr : SpanType → String
  | .workflowRun => "WORKFLOW_RUN"
  | .agentRun => "AGENT_RUN"
  | .toolCall => "TOOL_CALL"

def SpanType.ofStr (s : String) : Option SpanType :=
  if s = "WORKFLOW_RUN" then some .workflowRun
  else if s = "AGENT_RUN" then some .agentRun
  else if s = "TOOL_CALL" then some .toolCall
  else none

/-- Order-by field enum (`tracesOrderByFieldSchema`). -/
inductive OrderField where
  | startedAt
  | endedAt
deriving DecidableEq

def OrderField.toStr : OrderField → String
  | .startedAt => "startedAt"
  | .endedAt => "endedAt"

def OrderField.ofStr (s : String) : Option OrderField :=
  if s = "startedAt" then some .startedAt
  else if s = "endedAt" then some .endedAt
  else none

/-- Sort direction enum (`sortDirectionSchema`). -/
inductive SortDir where
  | asc
  | desc
deriving DecidableEq

def SortDir.toStr : SortDir → String
  | .asc => "ASC"
  | .desc => "DESC"

def SortDir.ofStr (s : String) : Option SortDir :=
  if s = "ASC" then some .asc
  else if s = "DESC" then some .desc
  else none

/-- String-keyed record filter (`z.record(z.unknown())`), with leaf values as their
wire strings. -/
abbrev KV := List (String × String)

/-- `dateRangeSchema` value; the source field `end` is a Lean keyword and is called
`stop` here. -/
structure DateRange where
  start : Option Int
  stop : Option Int
deriving DecidableEq

/-- `paginationArgsSchema` value. -/
structure PaginationArgs where
  page : Option Nat
  perPage : Option Nat
deriving DecidableEq

/-- `tracesFilterSchema` value. -/
structure TracesFilter where
  startedAt : Option DateRange
  endedAt : Option DateRange
  spanType : Option SpanType
  entityType : Option SpanEntityType
  entityId : Option String
  entityName : Option String
  userId : Option String
  organizationId : Option String
  resourceId : Option String
  runId : Option String
  sessionId : Option String
  threadId : Option String
  requestId : Option String
  environment : Option String
  source : Option String
  serviceName : Option String
  deploymentId : Option String
  metadata : Option KV
  tags : Option (List String)
  scope : Option KV
  versionInfo : Option KV
  status : Option SpanStatus
  hasChildError : Option Bool
deriving DecidableEq

/-- `tracesOrderBySchema` value. -/
structure TracesOrderBy where
  field : Option OrderField
  direction : Option SortDir
deriving DecidableEq

/-- `tracesPaginatedArgSchema` value (`TracesPaginatedArg`). -/
structure TracesPaginatedArg where
  filters : Option TracesFilter
  pagination : Option PaginationArgs
  orderBy : Option TracesOrderBy
deriving DecidableEq

/-- A field-level validation error (`{field, message}`). -/
structure VError where
  field : String
  message : String
deriving DecidableEq

def errAt (fld msg : String) : List VError := [⟨fld, msg⟩]

/-- `z.string()` on a restructured field: qs leaves are strings, so any scalar
passes (as its wire string); objects and arrays are rejected. -/
def chkString (fld : String) : Option PVal → List VError × Option String
  | none => ([], none)
  | some (.scalar v) => ([], some (qvalToStr v))
  | some _ => (errAt fld "Expected string", none)

/-- `z.coerce.number().int().min(minv)`. -/
def chkNat (fld : String) (minv : Nat) : Option PVal → List VError × Option Nat
  | none => ([], none)
  | some (.scalar (.num n)) =>
    if minv ≤ n then ([], some n) else (errAt fld "Number too small", none)
  | some (.scalar (.str s)) =>
    match strToNat s with
    | some n => if minv ≤ n then ([], some n) else (errAt fld "Number too small", none)
    | none => (errAt fld "Expected number", none)
  | some (.scalar (.bool b)) =>
    if minv ≤ (cond b 1 0) then ([], some (cond b 1 0)) else (errAt fld "Number too small", none)
  | some (.scalar (.date _)) => (errAt fld "Expected number", none)
  | some _ => (errAt fld "Expected number", none)

/-- The `hasChildError` preprocess + `z.boolean()`: only the strings `"true"` and
`"false"` (or an actual boolean) are accepted. -/
def chkBool (fld : String) : Option PVal → List VError × Option Bool
  | none => ([], none)
  | some (.scalar v) =>
    if qvalToStr v = "true" then ([], some true)
    else if qvalToStr v = "false" then ([], some false)
    else (errAt fld "Expected boolean", none)
  | some _ => (errAt fld "Expected boolean", none)

/-- An enum schema on a scalar field. -/
def chkEnum {α : Type} (fld : String) (ofStr : String → Option α) :
    Option PVal → List VError × Option α
  | none => ([], none)
  | some (.scalar v) =>
    match ofStr (qvalToStr v) with
    | some e => ([], some e)
    | none => (errAt fld "Invalid enum value", none)
  | some _ => (errAt fld "Invalid enum value", none)

/-- `z.coerce.date()` on one leaf. -/
def dateCoerce : QVal → Option Int
  | .date d => some d
  | .str s => jsDateParse s
  | .num n => some (Int.ofNat n)
  | .bool b => some (cond b 1 0)

/-- `dateRangeSchema` on a restructured field: an object whose optional `start`/`end`
leaves are coerced to dates, collecting an error per malformed leaf; non-objects are
rejected. Unknown sub-keys are stripped, as Zod does. -/
def chkDateRange (fld : String) : Option PVal → List VError × Option DateRange
  | none => ([], none)
  | some (.obj o) =>
    let sres : List VError × Option Int :=
      match jsLookup "start" o with
      | none => ([], none)
      | some v =>
        match dateCoerce v with
        | some d => ([], some d)
        | none => (errAt (fld ++ ".start") "Invalid date", none)
    let eres : List VError × Option Int :=
      match jsLookup "end" o with
      | none => ([], none)
      | some v =>
        match dateCoerce v with
        | some d => ([], some d)
        | none => (errAt (fld ++ ".end") "Invalid date", none)
    (sres.1 ++ eres.1, some ⟨sres.2, eres.2⟩)
  | some _ => (errAt fld "Expected object", none)

/-- Comma splitting of a character list (kernel-reducible stand-in for
`String.splitOn ","`). -/
def splitComma : List Char → List String
  | [] => [""]
  | c :: rest =>
    let tail := splitComma rest
    if c = ',' then "" :: tail
    else
      match tail with
      | [] => [String.mk [c]]
      | t :: ts => String.mk (c :: t.data) :: ts

/-- The `tags` preprocess: a lone string is split on commas, entries blank after
trimming are dropped (kept entries stay untrimmed; `t.trim() !== ''` holds exactly
when `t` has a non-whitespace character). -/
def splitTags (s : String) : List String :=
  (splitComma s.data).filter (fun t => t.data.any (fun c => !c.isWhitespace))

/-- The `tags` schema: preprocess then `z.array(z.string())`; array leaves are qs
strings and pass as such; objects are rejected. -/
def chkTags (fld : String) : Option PVal → List VError × Option (List String)
  | none => ([], none)
  | some (.scalar v) => ([], some (splitTags (qvalToStr v)))
  | some (.arr vs) => ([], some (vs.map qvalToStr))
  | some (.obj _) => (errAt fld "Expected array", none)

/-- `z.record(z.unknown())` on a restructured field: an object passes with its leaf
strings, anything else is rejected. -/
def chkRecord (fld : String) : Option PVal → List VError × Option KV
  | none => ([], none)
  | some (.obj o) => ([], some (o.map (fun kv => (kv.1, qvalToStr kv.2))))
  | some _ => (errAt fld "Expected object", none)

/-- An enum schema on one leaf of a nested object. -/
def chkEnumLeaf {α : Type} (fld : String) (ofStr : String → Option α) :
    Option QVal → List VError × Option α
  | none => ([], none)
  | some v =>
    match ofStr (qvalToStr v) with
    | some e => ([], some e)
    | none => (errAt fld "Invalid enum value", none)

/-- `tracesOrderBySchema` on the restructured `orderBy` value. -/
def chkOrderBy : Option PVal → List VError × Option TracesOrderBy
  | none => ([], none)
  | some (.obj o) =>
    let fres := chkEnumLeaf "orderBy.field" OrderField.ofStr (jsLookup "field" o)
    let dres := chkEnumLeaf "orderBy.direction" SortDir.ofStr (jsLookup "direction" o)
    (fres.1 ++ dres.1, some ⟨fres.2, dres.2⟩)
  | some _ => (errAt "orderBy" "Expected object", none)

/-- The per-field error lists of the Zod validation of the restructured query (one
list per schema field, in schema order; the restructuring routes `page`/`perPage`
into `pagination`, the scalar filter list and the nested filter keys into
`filters`, `orderBy` through; unrecognized top-level keys such as `dateRange` are
dropped before validation). -/
def fieldErrorLists (q : Query) : List (List VError) :=
  [(chkDateRange "filters.startedAt" (jsLookup "startedAt" (qsParse q))).1,
   (chkDateRange "filters.endedAt" (jsLookup "endedAt" (qsParse q))).1,
   (chkEnum "filters.spanType" SpanType.ofStr (jsLookup "spanType" (qsParse q))).1,
   (chkEnum "filters.entityType" SpanEntityType.ofStr (jsLookup "entityType" (qsParse q))).1,
   (chkString "filters.entityId" (jsLookup "entityId" (qsParse q))).1,
   (chkString "filters.entityName" (jsLookup "entityName" (qsParse q))).1,
   (chkString "filters.userId" (jsLookup "userId" (qsParse q))).1,
   (chkString "filters.organizationId" (jsLookup "organizationId" (qsParse q))).1,
   (chkString "filters.resourceId" (jsLookup "resourceId" (qsParse q))).1,
   (chkString "filters.runId" (jsLookup "runId" (qsParse q))).1,
   (chkString "filters.sessionId" (jsLookup "sessionId" (qsParse q))).1,
   (chkString "filters.threadId" (jsLookup "threadId" (qsParse q))).1,
   (chkString "filters.requestId" (jsLookup "requestId" (qsParse q))).1,
   (chkString "filters.environment" (jsLookup "environment" (qsParse q))).1,
   (chkString "filters.source" (jsLookup "source" (qsParse q))).1,
   (chkString "filters.serviceName" (jsLookup "serviceName" (qsParse q))).1,
   (chkString "filters.deploymentId" (jsLookup "deploymentId" (qsParse q))).1,
   (chkRecord "filters.metadata" (jsLookup "metadata" (qsParse q))).1,
   (chkTags "filters.tags" (jsLookup "tags" (qsParse q))).1,
   (chkRecord "filters.scope" (jsLookup "scope" (qsParse q))).1,
   (chkRecord "filters.versionInfo" (jsLookup "versionInfo" (qsParse q))).1,
   (chkEnum "filters.status" SpanStatus.ofStr (jsLookup "status" (qsParse q))).1,
   (chkBool "filters.hasChildError" (jsLookup "hasChildError" (qsParse q))).1,
   (chkNat "pagination.page" 0 (jsLookup "page" (qsParse q))).1,
   (chkNat "pagination.perPage" 1 (jsLookup "perPage" (qsParse q))).1,
   (chkOrderBy (jsLookup "orderBy" (qsParse q))).1]

/-- All collected validation errors (`result.error.issues` of `safeParse`). -/
def parseErrors (q : Query) : List VError :=
  (fieldErrorLists q).flatten

/-- A present `filters` object in the restructured query (`Object.keys(filters)
.length > 0` in the source's restructuring step). -/
def filtersPresent (q : Query) : Bool :=
  (jsLookup "spanType" (qsParse q)).isSome || (jsLookup "entityType" (qsParse q)).isSome ||
  (jsLookup "entityId" (qsParse q)).isSome || (jsLookup "entityName" (qsParse q)).isSome ||
  (jsLookup "userId" (qsParse q)).isSome || (jsLookup "organizationId" (qsParse q)).isSome ||
  (jsLookup "resourceId" (qsParse q)).isSome || (jsLookup "runId" (qsParse q)).isSome ||
  (jsLookup "sessionId" (qsParse q)).isSome || (jsLookup "threadId" (qsParse q)).isSome ||
  (jsLookup "requestId" (qsParse q)).isSome || (jsLookup "environment" (qsParse q)).isSome ||
  (jsLookup "source" (qsParse q)).isSome || (jsLookup "serviceName" (qsParse q)).isSome ||
  (jsLookup "deploymentId" (qsParse q)).isSome || (jsLookup "status" (qsParse q)).isSome ||
  (jsLookup "hasChildError" (qsParse q)).isSome || (jsLookup "startedAt" (qsParse q)).isSome ||
  (jsLookup "endedAt" (qsParse q)).isSome || (jsLookup "tags" (qsParse q)).isSome ||
  (jsLookup "metadata" (qsParse q)).isSome || (jsLookup "scope" (qsParse q)).isSome ||
  (jsLookup "versionInfo" (qsParse q)).isSome

/-- The typed value of a successful parse (`result.data` of `safeParse`). -/
def parseData (q : Query) : TracesPaginatedArg where
  filters :=
    if filtersPresent q then
      some
        { startedAt := (chkDateRange "filters.startedAt" (jsLookup "startedAt" (qsParse q))).2,
          endedAt := (chkDateRange "filters.endedAt" (jsLookup "endedAt" (qsParse q))).2,
          spanType := (chkEnum "filters.spanType" SpanType.ofStr (jsLookup "spanType" (qsParse q))).2,
          entityType := (chkEnum "filters.entityType" SpanEntityType.ofStr (jsLookup "entityType" (qsParse q))).2,
          entityId := (chkString "filters.entityId" (jsLookup "entityId" (qsParse q))).2,
          entityName := (chkString "filters.entityName" (jsLookup "entityName" (qsParse q))).2,
          userId := (chkString "filters.userId" (jsLookup "userId" (qsParse q))).2,
          organizationId := (chkString "filters.organizationId" (jsLookup "organizationId" (qsParse q))).2,
          resourceId := (chkString "filters.resourceId" (jsLookup "resourceId" (qsParse q))).2,
          runId := (chkString "filters.runId" (jsLookup "runId" (qsParse q))).2,
          sessionId := (chkString "filters.sessionId" (jsLookup "sessionId" (qsParse q))).2,
          threadId := (chkString "filters.threadId" (jsLookup "threadId" (qsParse q))).2,
          requestId := (chkString "filters.requestId" (jsLookup "requestId" (qsParse q))).2,
          environment := (chkString "filters.environment" (jsLookup "environment" (qsParse q))).2,
          source := (chkString "filters.source" (jsLookup "source" (qsParse q))).2,
          serviceName := (chkString "filters.serviceName" (jsLookup "serviceName" (qsParse q))).2,
          deploymentId := (chkString "filters.deploymentId" (jsLookup "deploymentId" (qsParse q))).2,
          metadata := (chkRecord "filters.metadata" (jsLookup "metadata" (qsParse q))).2,
          tags := (chkTags "filters.tags" (jsLookup "tags" (qsParse q))).2,
          scope := (chkRecord "filters.scope" (jsLookup "scope" (qsParse q))).2,
          versionInfo := (chkRecord "filters.versionInfo" (jsLookup "versionInfo" (qsParse q))).2,
          status := (chkEnum "filters.status" SpanStatus.ofStr (jsLookup "status" (qsParse q))).2,
          hasChildError := (chkBool "filters.hasChildError" (jsLookup "hasChildError" (qsParse q))).2 }
    else none
  pagination :=
    if (jsLookup "page" (qsParse q)).isSome || (jsLookup "perPage" (qsParse q)).isSome then
      some { page := (chkNat "pagination.page" 0 (jsLookup "page" (qsParse q))).2,
             perPage := (chkNat "pagination.perPage" 1 (jsLookup "perPage" (qsParse q))).2 }
    else none
  orderBy := (chkOrderBy (jsLookup "orderBy" (qsParse q))).2

/-- `parseTracesQueryParams`: qs-parse the pairs, restructure the recognized keys,
validate with the Zod schema collecting every field error, and return either the
full error list or the typed value. -/
def parseTracesQueryParams (q : Query) : Except (List VError) TracesPaginatedArg :=
  if (parseErrors q).isEmpty then .ok (parseData q) else .error (parseErrors q)

/-- One optional root-level `key=value` pair of the serializer. -/
def optFlat {α : Type} (k : String) (f : α → QVal) : Option α → Query
  | none => []
  | some v => [(.flat k, f v)]

/-- Serialization of one optional date range: `k[start]` / `k[end]` pairs with ISO
date values (an empty range object emits nothing, as `qs.stringify` drops it). -/
def dateRangeSeg (k : String) : Option DateRange → Query
  | none => []
  | some dr =>
    (match dr.start with
     | none => []
     | some d => [(.nested k "start", .date d)]) ++
    (match dr.stop with
     | none => []
     | some d => [(.nested k "end", .date d)])

/-- Serialization of `tags` with `arrayFormat: 'indices'`; emitted only when
non-empty, as `prepareForSerialization` checks `tags.length > 0`. -/
def tagsSeg : Option (List String) → Query
  | none => []
  | some ts =>
    if ts.length > 0 then
      ts.enum.map (fun it => (Path.nested "tags" (Nat.repr it.1), QVal.str it.2))
    else []

/-- Serialization of one optional record filter; emitted only when non-empty, as
`prepareForSerialization` checks `Object.keys(...).length > 0`. -/
def mapSeg (k : String) : Option KV → Query
  | none => []
  | some m =>
    if m.length > 0 then m.map (fun kv => (Path.nested k kv.1, QVal.str kv.2)) else []

/-- Serialization of `orderBy` with its present sub-fields. -/
def orderBySeg : Option TracesOrderBy → Query
  | none => []
  | some ob =>
    (match ob.field with
     | none => []
     | some f => [(.nested "orderBy" "field", .str f.toStr)]) ++
    (match ob.direction with
     | none => []
     | some d => [(.nested "orderBy" "direction", .str d.toStr)])

/-- The filter part of `prepareForSerialization`: scalar filter keys flattened to
root level in `SCALAR_FILTER_KEYS` order, then the nested structures. -/
def filtersSeg (f : TracesFilter) : Query :=
  optFlat "spanType" (fun v => .str v.toStr) f.spanType ++
  optFlat "entityType" (fun v => .str v.toStr) f.entityType ++
  optFlat "entityId" .str f.entityId ++
  optFlat "entityName" .str f.entityName ++
  optFlat "userId" .str f.userId ++
  optFlat "organizationId" .str f.organizationId ++
  optFlat "resourceId" .str f.resourceId ++
  optFlat "runId" .str f.runId ++
  optFlat "sessionId" .str f.sessionId ++
  optFlat "threadId" .str f.threadId ++
  optFlat "requestId" .str f.requestId ++
  optFlat "environment" .str f.environment ++
  optFlat "source" .str f.source ++
  optFlat "serviceName" .str f.serviceName ++
  optFlat "deploymentId" .str f.deploymentId ++
  optFlat "status" (fun v => .str v.toStr) f.status ++
  optFlat "hasChildError" .bool f.hasChildError ++
  dateRangeSeg "startedAt" f.startedAt ++
  dateRangeSeg "endedAt" f.endedAt ++
  tagsSeg f.tags ++
  mapSeg "metadata" f.metadata ++
  mapSeg "scope" f.scope ++
  mapSeg "versionInfo" f.versionInfo

/-- The pagination part of `prepareForSerialization`: `page`/`perPage` flattened to
root level. -/
def pagSeg : Option PaginationArgs → Query
  | none => []
  | some pg => optFlat "page" .num pg.page ++ optFlat "perPage" .num pg.perPage

/-- The filter part for an optional filters object. -/
def filtersSegOpt : Option TracesFilter → Query
  | none => []
  | some f => filtersSeg f

/-- `serializeTracesParams` (via `prepareForSerialization` and `qs.stringify` with
`skipNulls` and index notation): pagination flattened to root, scalar filters
flattened to root, nested structures in bracket notation, dates as ISO strings,
absent fields omitted. -/
def serializeTracesParams (x : TracesPaginatedArg) : Query :=
  pagSeg x.pagination ++ filtersSegOpt x.filters ++ orderBySeg x.orderBy

/-- A map key as it must look to survive the query string: non-empty, no
qs-metacharacters, and not a canonical array index (which `qs.parse` would turn
into an array slot). -/
def goodKey (k : String) : Bool :=
  k ≠ "" && (natParseCanon k).isNone &&
  k.data.all (fun c => c ≠ '[' && c ≠ ']' && c ≠ '&' && c ≠ '=' && c ≠ '%')

/-- Well-formed record filter value: non-empty, unique good keys. -/
def wfMap (m : KV) : Prop :=
  m ≠ [] ∧ (m.map (fun kv => kv.1)).Nodup ∧ ∀ kv ∈ m, goodKey kv.1 = true

/-- Well-formed date range: at least one endpoint, so the range survives
serialization. -/
def wfDR (dr : DateRange) : Prop :=
  dr.start.isSome = true ∨ dr.stop.isSome = true

/-- At least one filter field is present (an all-absent filters object serializes
to nothing and cannot reappear on parse). -/
def filterHasField (f : TracesFilter) : Prop :=
  f.startedAt.isSome = true ∨ f.endedAt.isSome = true ∨ f.spanType.isSome = true ∨
  f.entityType.isSome = true ∨ f.entityId.isSome = true ∨ f.entityName.isSome = true ∨
  f.userId.isSome = true ∨ f.organizationId.isSome = true ∨ f.resourceId.isSome = true ∨
  f.runId.isSome = true ∨ f.sessionId.isSome = true ∨ f.threadId.isSome = true ∨
  f.requestId.isSome = true ∨ f.environment.isSome = true ∨ f.source.isSome = true ∨
  f.serviceName.isSome = true ∨ f.deploymentId.isSome = true ∨ f.metadata.isSome = true ∨
  f.tags.isSome = true ∨ f.scope.isSome = true ∨ f.versionInfo.isSome = true ∨
  f.status.isSome = true ∨ f.hasChildError.isSome = true

/-- Well-formed filters value: some field present, date ranges non-degenerate, a
non-empty tags list of at most 21 entries (the qs `arrayLimit`), and non-empty
well-keyed record filters. -/
def wfFilters (f : TracesFilter) : Prop :=
  filterHasField f ∧
  (∀ dr, f.startedAt = some dr → wfDR dr) ∧
  (∀ dr, f.endedAt = some dr → wfDR dr) ∧
  (∀ ts, f.tags = some ts → ts ≠ [] ∧ ts.length ≤ 21) ∧
  (∀ m, f.metadata = some m → wfMap m) ∧
  (∀ m, f.scope = some m → wfMap m) ∧
  (∀ m, f.versionInfo = some m → wfMap m)

/-- A `TracesPaginatedArg` built solely from defined, schema-valid fields: every
present component non-degenerate and `perPage ≥ 1` as `paginationArgsSchema`
requires. -/
def wfArg (x : TracesPaginatedArg) : Prop :=
  (∀ pg, x.pagination = some pg →
    (pg.page.isSome = true ∨ pg.perPage.isSome = true) ∧ ∀ n, pg.perPage = some n → 1 ≤ n) ∧
  (∀ f, x.filters = some f → wfFilters f) ∧
  (∀ ob, x.orderBy = some ob → ob.field.isSome = true ∨ ob.direction.isSome = true)

end QP

/-- A concrete schema-valid `TracesPaginatedArg` exercising pagination, scalar
filters, a date range, tags, a metadata record and an order-by clause. -/
def C1x : QP.TracesPaginatedArg where
  filters := some
    { startedAt := some ⟨some 100, none⟩,
      endedAt := none,
      spanType := some QP.SpanType.agentRun,
      entityType := some QP.SpanEntityType.agent,
      entityId := some "weatherAgent",
      entityName := none,
      userId := some "",
      organizationId := none,
      resourceId := none,
      runId := none,
      sessionId := none,
      threadId := none,
      requestId := none,
      environment := none,
      source := none,
      serviceName := none,
      deploymentId := none,
      metadata := some [("x", "1"), ("y", "2")],
      tags := some ["a", "b"],
      scope := none,
      versionInfo := none,
      status := some QP.SpanStatus.error,
      hasChildError := some false }
  pagination := some ⟨some 0, some 20⟩
  orderBy := some ⟨some QP.OrderField.startedAt, none⟩

/-- A schema-valid `TracesPaginatedArg` whose only filter is a 22-entry tags list
(`tracesFilterSchema` puts no bound on the array length). -/
def C1bad : QP.TracesPaginatedArg where
  filters := some
    { startedAt := none,
      endedAt := none,
      spanType := none,
      entityType := none,
      entityId := none,
      entityName := none,
      userId := none,
      organizationId := none,
      resourceId := none,
      runId := none,
      sessionId := none,
      threadId := none,
      requestId := none,
      environment := none,
      source := none,
      serviceName := none,
      deploymentId := none,
      metadata := none,
      tags := some (List.replicate 22 "t"),
      scope := none,
      versionInfo := none,
      status := none,
      hasChildError := none }
  pagination := none
  orderBy := none

/-- A schema-valid `TracesPaginatedArg` whose only filter is the non-empty metadata
record `{"0": "1"}` (`z.record(z.string(), ...)` accepts any string key). -/
def C1bad2 : QP.TracesPaginatedArg where
  filters := some
    { startedAt := none,
      endedAt := none,
      spanType := none,
      entityType := none,
      entityId := none,
      entityName := none,
      userId := none,
      organizationId := none,
      resourceId := none,
      runId := none,
      sessionId := none,
      threadId := none,
      requestId := none,
      environment := none,
      source := none,
      serviceName := none,
      deploymentId := none,
      metadata := some [("0", "1")],
      tags := none,
      scope := none,
      versionInfo := none,
      status := none,
      hasChildError := none }
  pagination := none
  orderBy := none

namespace Obs

@[simp]
theorem scalarPass_none (sv : Option String) : scalarPass none sv = true := rfl

theorem derivedStatusSpec_eq (e : Option ErrorInfo) (d : Option Int) :
    derivedStatusSpec e d =
      (if e.isSome then "error" else if d = none then "running" else "success") := by
  cases e <;> simp [derivedStatusSpec]

theorem spanPasses_status_only (st : String) (hst : st ≠ "") (s : SpanRecord) :
    spanPassesFilter { emptyFilter with status := some st } s =
      (derivedStatusSpec s.error s.endedAt == st) := by
  simp [spanPassesFilter, emptyFilter, hst, derivedStatusSpec_eq]

theorem spanPasses_tags_only (ts : List String) (hts : ts ≠ []) (s : SpanRecord) :
    spanPassesFilter { emptyFilter with tags := some ts } s = tagMatch ts s.tags := by
  have hlen : 0 < ts.length := List.length_pos.mpr hts
  cases h : s.tags <;> simp [spanPassesFilter, emptyFilter, tagMatch, hlen, h]

theorem spanPasses_maps_only (me sc vi : Option KV) (s : SpanRecord) :
    spanPassesFilter { emptyFilter with metadata := me, scope := sc, versionInfo := vi } s =
      ((match me with | none => true | some m => subsetMatch m s.metadata) &&
       (match sc with | none => true | some m => subsetMatch m s.scope) &&
       (match vi with | none => true | some m => subsetMatch m s.versionInfo)) := by
  cases me <;> cases sc <;> cases vi <;>
    simp [spanPassesFilter, emptyFilter, subsetMatch]

theorem dashFree_not_mem {s : String} (h : dashFree s = true) : '-' ∉ s.data := by
  intro hm
  simp only [dashFree, List.all_eq_true] at h
  simpa using h _ hm

theorem split_at_dash :
    ∀ (l1 : List Char) {l2 r1 r2 : List Char}, '-' ∉ l1 → '-' ∉ l2 →
      l1 ++ '-' :: r1 = l2 ++ '-' :: r2 → l1 = l2 ∧ r1 = r2 := by
  intro l1
  induction l1 with
  | nil =>
    intro l2 r1 r2 _ h2 heq
    cases l2 with
    | nil => simpa using heq
    | cons c l2' =>
      simp only [List.nil_append, List.cons_append, List.cons.injEq] at heq
      exact absurd (heq.1 ▸ List.mem_cons_self c l2') h2
  | cons c l1' ih =>
    intro l2 r1 r2 h1 h2 heq
    cases l2 with
    | nil =>
      simp only [List.cons_append, List.nil_append, List.cons.injEq] at heq
      exact absurd (heq.1 ▸ List.mem_cons_self c l1') h1
    | cons d l2' =>
      simp only [List.cons_append, List.cons.injEq] at heq
      obtain ⟨rfl, heq'⟩ := heq
      have h1' : '-' ∉ l1' := fun hm => h1 (List.mem_cons_of_mem _ hm)
      have h2' : '-' ∉ l2' := fun hm => h2 (List.mem_cons_of_mem _ hm)
      obtain ⟨rfl, rfl⟩ := ih h1' h2' heq'
      exact ⟨rfl, rfl⟩

theorem generateId_inj {t s t' s' : String} (ht : dashFree t = true) (ht' : dashFree t' = true)
    (h : generateId t s = generateId t' s') : t = t' ∧ s = s' := by
  have hdata : t.data ++ '-' :: s.data = t'.data ++ '-' :: s'.data := by
    have := congrArg String.data h
    simpa [generateId, String.data_append] using this
  obtain ⟨h1, h2⟩ := split_at_dash t.data (dashFree_not_mem ht) (dashFree_not_mem ht') hdata
  exact ⟨String.ext h1, String.ext h2⟩

theorem jsMapGet_set_self (k : String) (v : SpanRecord) (c : Collection) :
    jsMapGet k (jsMapSet k v c) = some v := by
  induction c with
  | nil => simp [jsMapGet, jsMapSet]
  | cons e rest ih =>
    by_cases h : e.1 = k
    · simp [jsMapGet, jsMapSet, h]
    · simpa [jsMapGet, jsMapSet, h] using ih

theorem jsMapSet_mem_of_ne {k' : String} {v' : SpanRecord} {c : Collection}
    (hm : (k', v') ∈ c) (hne : k' ≠ k) (v : SpanRecord) : (k', v') ∈ jsMapSet k v c := by
  induction c with
  | nil => cases hm
  | cons e rest ih =>
    rcases List.mem_cons.mp hm with h | h
    · by_cases he : e.1 = k
      · exact absurd (by rw [← h] at he; exact he) hne
      · rw [jsMapSet, if_neg he, ← h]
        exact List.mem_cons_self _ _
    · by_cases he : e.1 = k
      · rw [jsMapSet, if_pos he]
        exact List.mem_cons_of_mem _ h
      · rw [jsMapSet, if_neg he]
        exact List.mem_cons_of_mem _ (ih h)

theorem jsMapSet_entries {k : String} {v : SpanRecord} {c : Collection} :
    ∀ e ∈ jsMapSet k v c, e = (k, v) ∨ e ∈ c := by
  induction c with
  | nil =>
    intro e he
    simp only [jsMapSet, List.mem_singleton] at he
    exact Or.inl he
  | cons e0 rest ih =>
    intro e he
    by_cases h : e0.1 = k
    · rw [jsMapSet, if_pos h] at he
      rcases List.mem_cons.mp he with h' | h'
      · exact Or.inl h'
      · exact Or.inr (List.mem_cons_of_mem _ h')
    · rw [jsMapSet, if_neg h] at he
      rcases List.mem_cons.mp he with h' | h'
      · exact Or.inr (h' ▸ List.mem_cons_self _ _)
      · rcases ih e h' with h'' | h''
        · exact Or.inl h''
        · exact Or.inr (List.mem_cons_of_mem _ h'')

theorem jsMapSet_keys (k : String) (v : SpanRecord) (c : Collection) :
    (jsMapSet k v c).map (fun e => e.1) =
      if k ∈ c.map (fun e => e.1) then c.map (fun e => e.1)
      else c.map (fun e => e.1) ++ [k] := by
  induction c with
  | nil => simp [jsMapSet]
  | cons e0 rest ih =>
    by_cases h : e0.1 = k
    · simp [jsMapSet, h]
    · by_cases hk : k ∈ rest.map (fun e => e.1)
      · simp [jsMapSet, h, hk, Ne.symm h, ih]
      · simp [jsMapSet, h, hk, Ne.symm h, ih]

theorem jsMapSet_keys_nodup {k : String} {v : SpanRecord} {c : Collection}
    (h : (c.map (fun e => e.1)).Nodup) : ((jsMapSet k v c).map (fun e => e.1)).Nodup := by
  rw [jsMapSet_keys]
  by_cases hk : k ∈ c.map (fun e => e.1)
  · simpa [hk] using h
  · rw [if_neg hk]
    refine List.Nodup.append h (List.nodup_singleton k) ?_
    intro a ha hb
    rw [List.mem_singleton] at hb
    exact hk (hb ▸ ha)

theorem jsMapGet_some_mem {k : String} {v : SpanRecord} {c : Collection}
    (h : jsMapGet k c = some v) : (k, v) ∈ c := by
  unfold jsMapGet at h
  rcases hf : c.find? (fun e => e.1 == k) with _ | e
  · rw [hf] at h
    cases h
  · rw [hf] at h
    have hm := List.mem_of_find?_eq_some hf
    have hp := List.find?_some hf
    have hk : e.1 = k := by simpa using hp
    have hv : e.2 = v := by
      cases h
      rfl
    have : e = (k, v) := by
      cases e
      simp_all
    exact this ▸ hm

theorem jsMapGet_eq_of_mem {k : String} {v : SpanRecord} {c : Collection}
    (hnd : (c.map (fun e => e.1)).Nodup) (hm : (k, v) ∈ c) : jsMapGet k c = some v := by
  induction c with
  | nil => cases hm
  | cons e0 rest ih =>
    rcases List.mem_cons.mp hm with h | h
    · rw [← h]
      simp [jsMapGet]
    · have hnd' : e0.1 ∉ rest.map (fun e => e.1) ∧ (rest.map (fun e => e.1)).Nodup := by
        rw [List.map_cons, List.nodup_cons] at hnd
        exact hnd
      have hk : k ∈ rest.map (fun e => e.1) := List.mem_map_of_mem _ h
      have h0 : e0.1 ≠ k := by
        intro he
        rw [he] at hnd'
        exact hnd'.1 hk
      have : jsMapGet k rest = some v := ih hnd'.2 h
      simpa [jsMapGet, h0] using this

theorem jsMapGet_eq_none {k : String} {c : Collection} :
    jsMapGet k c = none ↔ ∀ e ∈ c, e.1 ≠ k := by
  rcases hf : c.find? (fun e => e.1 == k) with _ | e
  · have hall := List.find?_eq_none.mp hf
    simp only [jsMapGet, hf]
    constructor
    · intro _ e hm
      simpa using hall e hm
    · intro _
      trivial
  · have hm := List.mem_of_find?_eq_some hf
    have hp : e.1 = k := by simpa using List.find?_some hf
    simp only [jsMapGet, hf]
    constructor
    · intro h
      cases h
    · intro hall
      exact absurd hp (hall e hm)

theorem wfColl_jsMapSet {c : Collection} {v : SpanRecord}
    (hwf : WfColl c) (hk : k = generateId v.traceId v.spanId) :
    WfColl (jsMapSet k v c) := by
  constructor
  · intro e he
    rcases jsMapSet_entries e he with h | h
    · rw [h]
      exact hk
    · exact hwf.1 e h
  · exact jsMapSet_keys_nodup hwf.2

theorem dashFreeColl_jsMapSet {c : Collection} {v : SpanRecord}
    (hdf : DashFreeColl c) (hv : dashFree v.traceId = true ∧ dashFree v.spanId = true) :
    DashFreeColl (jsMapSet k v c) := by
  intro e he
  rcases jsMapSet_entries e he with h | h
  · rw [h]
    exact hv
  · exact hdf e h

theorem createSpan_cases (c : Collection) (r : SpanRecord) (now : Int) :
    (createSpan c r now).2 = c ∨
    (createSpan c r now).2 =
      jsMapSet (generateId r.traceId r.spanId) { r with createdAt := now, updatedAt := now } c := by
  by_cases h1 : r.spanId = ""
  · exact Or.inl (by simp [createSpan, h1])
  · by_cases h2 : r.traceId = ""
    · exact Or.inl (by simp [createSpan, h1, h2])
    · exact Or.inr (by simp [createSpan, h1, h2])

theorem wf_createSpan {c : Collection} {r : SpanRecord} {now : Int}
    (hwf : WfColl c) (hdf : DashFreeColl c)
    (hr : dashFree r.traceId = true ∧ dashFree r.spanId = true) :
    WfColl (createSpan c r now).2 ∧ DashFreeColl (createSpan c r now).2 := by
  rcases createSpan_cases c r now with h | h <;> rw [h]
  · exact ⟨hwf, hdf⟩
  · exact ⟨wfColl_jsMapSet hwf rfl, dashFreeColl_jsMapSet hdf hr⟩

theorem updateSpan_cases (c : Collection) (t s : String) (u : UpdateSpanRecord) (now : Int) :
    (updateSpan c t s u now).2 = c ∨
    ∃ r0, jsMapGet (generateId t s) c = some r0 ∧
      (updateSpan c t s u now).2 = jsMapSet (generateId t s) (applyUpdates r0 u now) c := by
  rcases hg : jsMapGet (generateId t s) c with _ | r0
  · exact Or.inl (by simp [updateSpan, hg])
  · refine Or.inr ⟨r0, ?_, ?_⟩ <;> simp [updateSpan, hg]

theorem wf_updateSpan {c : Collection} {t s : String} {u : UpdateSpanRecord} {now : Int}
    (hwf : WfColl c) (hdf : DashFreeColl c) :
    WfColl (updateSpan c t s u now).2 ∧ DashFreeColl (updateSpan c t s u now).2 := by
  rcases updateSpan_cases c t s u now with h | ⟨r0, hg, h⟩
  · rw [h]
    exact ⟨hwf, hdf⟩
  · rw [h]
    have hm := jsMapGet_some_mem hg
    have hkey : generateId t s = generateId r0.traceId r0.spanId := hwf.1 _ hm
    have hids : (applyUpdates r0 u now).traceId = r0.traceId ∧
        (applyUpdates r0 u now).spanId = r0.spanId := ⟨rfl, rfl⟩
    constructor
    · exact wfColl_jsMapSet hwf (by rw [hids.1, hids.2]; exact hkey)
    · exact dashFreeColl_jsMapSet hdf (by rw [hids.1, hids.2]; exact hdf _ hm)

theorem jsMapDelete_subset {k : String} {c : Collection} : ∀ e ∈ jsMapDelete k c, e ∈ c :=
  fun _ he => List.mem_of_mem_filter he

theorem wf_jsMapDelete {k : String} {c : Collection} (hwf : WfColl c) :
    WfColl (jsMapDelete k c) := by
  constructor
  · intro e he
    exact hwf.1 e (jsMapDelete_subset e he)
  · exact hwf.2.sublist ((List.filter_sublist c).map (fun e => e.1))

theorem deleteTrace_fold_wf {l : List SpanRecord} :
    ∀ {acc : Collection}, WfColl acc → DashFreeColl acc →
      WfColl (l.foldl (fun a sp => jsMapDelete (generateId sp.traceId sp.spanId) a) acc) ∧
      DashFreeColl (l.foldl (fun a sp => jsMapDelete (generateId sp.traceId sp.spanId) a) acc) := by
  induction l with
  | nil => exact fun hwf hdf => ⟨hwf, hdf⟩
  | cons sp rest ih =>
    intro acc hwf hdf
    exact ih (wf_jsMapDelete hwf) (fun e he => hdf e (jsMapDelete_subset e he))

theorem wf_deleteTrace {c : Collection} {tid : String}
    (hwf : WfColl c) (hdf : DashFreeColl c) :
    WfColl (deleteTrace c tid) ∧ DashFreeColl (deleteTrace c tid) :=
  deleteTrace_fold_wf hwf hdf

theorem wf_batchDeleteTraces {tids : List String} :
    ∀ {c : Collection}, WfColl c → DashFreeColl c →
      WfColl (batchDeleteTraces c tids) ∧ DashFreeColl (batchDeleteTraces c tids) := by
  induction tids with
  | nil => exact fun hwf hdf => ⟨hwf, hdf⟩
  | cons tid rest ih =>
    intro c hwf hdf
    have h := @wf_deleteTrace c tid hwf hdf
    exact ih h.1 h.2

theorem wf_batchCreateSpans {rs : List SpanRecord} {now : Int} :
    ∀ {c : Collection}, WfColl c → DashFreeColl c →
      (∀ r ∈ rs, dashFree r.traceId = true ∧ dashFree r.spanId = true) →
      WfColl (batchCreateSpans c rs now).2 ∧ DashFreeColl (batchCreateSpans c rs now).2 := by
  induction rs with
  | nil => exact fun hwf hdf _ => ⟨hwf, hdf⟩
  | cons r rest ih =>
    intro c hwf hdf hall
    have hr := hall r (List.mem_cons_self _ _)
    have h := @wf_createSpan c r now hwf hdf hr
    rcases hc : createSpan c r now with ⟨oe, c'⟩
    rw [hc] at h
    rcases oe with _ | e
    · simp only [batchCreateSpans, hc]
      exact ih h.1 h.2 (fun r' hr' => hall r' (List.mem_cons_of_mem _ hr'))
    · simp only [batchCreateSpans, hc]
      exact h

theorem wf_applyOp {c : Collection} {op : Op}
    (hwf : WfColl c) (hdf : DashFreeColl c) (hop : dashFreeOp op = true) :
    WfColl (applyOp c op) ∧ DashFreeColl (applyOp c op) := by
  cases op with
  | create r now =>
    simp only [dashFreeOp, Bool.and_eq_true] at hop
    exact wf_createSpan hwf hdf hop
  | batchCreate rs now =>
    simp only [dashFreeOp, List.all_eq_true] at hop
    refine wf_batchCreateSpans hwf hdf (fun r hr => ?_)
    have := hop r hr
    simpa using this
  | update t s u now => exact wf_updateSpan hwf hdf
  | deleteTraces tids => exact wf_batchDeleteTraces hwf hdf

theorem wf_runOps {ops : List Op} :
    ∀ {c : Collection}, WfColl c → DashFreeColl c → (∀ op ∈ ops, dashFreeOp op = true) →
      WfColl (runOps c ops) ∧ DashFreeColl (runOps c ops) := by
  induction ops with
  | nil => exact fun hwf hdf _ => ⟨hwf, hdf⟩
  | cons op rest ih =>
    intro c hwf hdf hall
    have h := wf_applyOp hwf hdf (hall op (List.mem_cons_self _ _))
    exact ih h.1 h.2 (fun op' hop' => hall op' (List.mem_cons_of_mem _ hop'))

theorem pairCount_le_one {c : Collection} (hwf : WfColl c) (hdf : DashFreeColl c)
    (t s : String) : pairCount t s c ≤ 1 := by
  induction c with
  | nil => simp [pairCount]
  | cons e0 rest ih =>
    have hwf' : WfColl rest := by
      refine ⟨fun e he => hwf.1 e (List.mem_cons_of_mem _ he), ?_⟩
      have := hwf.2
      rw [List.map_cons, List.nodup_cons] at this
      exact this.2
    have hdf' : DashFreeColl rest := fun e he => hdf e (List.mem_cons_of_mem _ he)
    have hhead : e0.1 ∉ rest.map (fun e => e.1) := by
      have := hwf.2
      rw [List.map_cons, List.nodup_cons] at this
      exact this.1
    by_cases hp : e0.2.traceId = t ∧ e0.2.spanId = s
    · have hzero : (rest.filter (fun e => decide (e.2.traceId = t ∧ e.2.spanId = s))).length = 0 := by
        rw [List.length_eq_zero, List.filter_eq_nil_iff]
        intro e he hd
        have hpair : e.2.traceId = t ∧ e.2.spanId = s := by simpa using hd
        have hkey : e.1 = generateId t s := by
          rw [hwf.1 e (List.mem_cons_of_mem _ he), hpair.1, hpair.2]
        have hkey0 : e0.1 = generateId t s := by
          rw [hwf.1 e0 (List.mem_cons_self _ _), hp.1, hp.2]
        apply hhead
        rw [hkey0, ← hkey]
        exact List.mem_map_of_mem _ he
      simp only [pairCount, List.filter_cons]
      rw [if_pos (by simpa using hp)]
      simp only [List.length_cons]
      have : (rest.filter (fun e => decide (e.2.traceId = t ∧ e.2.spanId = s))).length = 0 := hzero
      omega
    · have := ih hwf' hdf'
      simp only [pairCount, List.filter_cons] at *
      rw [if_neg (by simpa using hp)]
      exact this

theorem frame_createSpan {c : Collection} {r : SpanRecord} {now : Int} {k' : String}
    {v' : SpanRecord} (hwf : WfColl c) (hdf : DashFreeColl c)
    (hr : dashFree r.traceId = true ∧ dashFree r.spanId = true)
    (hm : (k', v') ∈ c) (hne : ¬(v'.traceId = r.traceId ∧ v'.spanId = r.spanId)) :
    (k', v') ∈ (createSpan c r now).2 := by
  rcases createSpan_cases c r now with h | h <;> rw [h]
  · exact hm
  · refine jsMapSet_mem_of_ne hm ?_ _
    intro hk
    have hk' : k' = generateId v'.traceId v'.spanId := hwf.1 _ hm
    have hv' := hdf _ hm
    have heq : generateId v'.traceId v'.spanId = generateId r.traceId r.spanId := by
      rw [← hk', hk]
    exact hne (generateId_inj hv'.1 hr.1 heq)

theorem frame_updateSpan {c : Collection} {t s : String} {u : UpdateSpanRecord} {now : Int}
    {k' : String} {v' : SpanRecord} (hwf : WfColl c) (hdf : DashFreeColl c)
    (ht : dashFree t = true) (hs : dashFree s = true)
    (hm : (k', v') ∈ c) (hne : ¬(v'.traceId = t ∧ v'.spanId = s)) :
    (k', v') ∈ (updateSpan c t s u now).2 := by
  rcases updateSpan_cases c t s u now with h | ⟨r0, hg, h⟩ <;> rw [h]
  · exact hm
  · refine jsMapSet_mem_of_ne hm ?_ _
    intro hk
    have hk' : k' = generateId v'.traceId v'.spanId := hwf.1 _ hm
    have hv' := hdf _ hm
    have heq : generateId v'.traceId v'.spanId = generateId t s := by
      rw [← hk', hk]
    exact hne (generateId_inj hv'.1 ht heq)

theorem jsMapDelete_mem {k : String} {e : String × SpanRecord} {c : Collection}
    (hm : e ∈ c) (hne : e.1 ≠ k) : e ∈ jsMapDelete k c :=
  List.mem_filter.mpr ⟨hm, by simpa using hne⟩

theorem fold_delete_mem {k' : String} {v' : SpanRecord} {l : List SpanRecord} :
    ∀ {acc : Collection}, (k', v') ∈ acc →
      (∀ sp ∈ l, generateId sp.traceId sp.spanId ≠ k') →
      (k', v') ∈ l.foldl (fun a sp => jsMapDelete (generateId sp.traceId sp.spanId) a) acc := by
  induction l with
  | nil => exact fun hm _ => hm
  | cons sp rest ih =>
    intro acc hm hall
    refine ih (jsMapDelete_mem hm ?_) (fun sp' h' => hall sp' (List.mem_cons_of_mem _ h'))
    exact fun he => hall sp (List.mem_cons_self _ _) (he ▸ rfl)

theorem frame_deleteTrace {c : Collection} {tid : String} {k' : String} {v' : SpanRecord}
    (hwf : WfColl c) (hdf : DashFreeColl c)
    (hm : (k', v') ∈ c) (hne : v'.traceId ≠ tid) : (k', v') ∈ deleteTrace c tid := by
  refine fold_delete_mem hm ?_
  intro sp hsp hk
  have hsp1 := List.mem_of_mem_filter hsp
  have hsp2 : sp.traceId = tid := by simpa using List.of_mem_filter hsp
  obtain ⟨e, he, rfl⟩ := List.mem_map.mp hsp1
  have hk' : k' = generateId v'.traceId v'.spanId := hwf.1 _ hm
  have hv' := hdf _ hm
  have hesp := hdf _ he
  have heq : generateId e.2.traceId e.2.spanId = generateId v'.traceId v'.spanId := by
    rw [hk, hk']
  have := generateId_inj hesp.1 hv'.1 heq
  exact hne (by rw [← this.1, hsp2])

theorem frame_batchDeleteTraces {tids : List String} {k' : String} {v' : SpanRecord} :
    ∀ {c : Collection}, WfColl c → DashFreeColl c → (k', v') ∈ c → v'.traceId ∉ tids →
      (k', v') ∈ batchDeleteTraces c tids := by
  induction tids with
  | nil => exact fun _ _ hm _ => hm
  | cons tid rest ih =>
    intro c hwf hdf hm hni
    have hwd := @wf_deleteTrace c tid hwf hdf
    refine ih hwd.1 hwd.2 ?_ (fun h => hni (List.mem_cons_of_mem _ h))
    exact frame_deleteTrace hwf hdf hm (fun h => hni (h ▸ List.mem_cons_self _ _))

theorem frame_batchCreateSpans {rs : List SpanRecord} {now : Int} {k' : String}
    {v' : SpanRecord} :
    ∀ {c : Collection}, WfColl c → DashFreeColl c →
      (∀ r ∈ rs, dashFree r.traceId = true ∧ dashFree r.spanId = true) →
      (k', v') ∈ c → (∀ r ∈ rs, ¬(v'.traceId = r.traceId ∧ v'.spanId = r.spanId)) →
      (k', v') ∈ (batchCreateSpans c rs now).2 := by
  induction rs with
  | nil => exact fun _ _ _ hm _ => hm
  | cons r rest ih =>
    intro c hwf hdf hall hm hne
    have hr := hall r (List.mem_cons_self _ _)
    have hwc := @wf_createSpan c r now hwf hdf hr
    have hm' : (k', v') ∈ (createSpan c r now).2 :=
      frame_createSpan hwf hdf hr hm (hne r (List.mem_cons_self _ _))
    rcases hc : createSpan c r now with ⟨oe, c'⟩
    rw [hc] at hwc hm'
    rcases oe with _ | e
    · simp only [batchCreateSpans, hc]
      exact ih hwc.1 hwc.2 (fun r' h' => hall r' (List.mem_cons_of_mem _ h')) hm'
        (fun r' h' => hne r' (List.mem_cons_of_mem _ h'))
    · simpa only [batchCreateSpans, hc] using hm'

end Obs

/-- Claim C2: the status surfaced and filtered by the storage engine is the pure
function of `(error, endedAt)` the spec states: `"error"` when the error is
present, else `"running"` when `endedAt` is null, else `"success"`; the status
filter of `getTracesPaginated` (inside `filterSpansByFilter`) matches spans by
exactly this rule. -/
theorem C2_derived_status (spans : List Obs.SpanRecord) (st : String) (hst : st ≠ "") :
    (∀ e d, Obs.derivedStatusSpec e d =
      (if e ≠ none then "error" else if d = none then "running" else "success")) ∧
    Obs.filterSpansByFilter spans (some { Obs.emptyFilter with status := some st }) =
      spans.filter (fun s => Obs.derivedStatusSpec s.error s.endedAt == st) := by
  constructor
  · intro e d
    rfl
  · unfold Obs.filterSpansByFilter
    exact List.filter_congr (fun s _ => Obs.spanPasses_status_only st hst s)

/-- Claim C3: `getTracesPaginated` returns `hasMore = ((page+1)*perPage < total)`
with `total` the count of spans remaining after filtering, returns at most
`perPage` spans, and defaults `page` to 0 and `perPage` to 10 when unset. -/
theorem C3_pagination_invariant (c : Obs.Collection) (f : Option Obs.TracesFilter)
    (pg : Option Obs.PaginationArgs) :
    (Obs.getTracesPaginated c f pg).pagination.page = (pg.bind (fun p => p.page)).getD 0 ∧
    (Obs.getTracesPaginated c f pg).pagination.perPage = (pg.bind (fun p => p.perPage)).getD 10 ∧
    (Obs.getTracesPaginated c f pg).pagination.total =
      (Obs.filterSpansByDate (Obs.filterSpansByFilter (Obs.filterForRootSpans (Obs.values c)) f)
        ((pg.bind (fun p => p.dateRange)).bind (fun d => d.start))
        ((pg.bind (fun p => p.dateRange)).bind (fun d => d.stop))).length ∧
    (Obs.getTracesPaginated c f pg).pagination.hasMore =
      decide (((pg.bind (fun p => p.page)).getD 0 + 1) * ((pg.bind (fun p => p.perPage)).getD 10)
        < (Obs.getTracesPaginated c f pg).pagination.total) ∧
    (Obs.getTracesPaginated c f pg).spans.length ≤ (pg.bind (fun p => p.perPage)).getD 10 := by
  refine ⟨rfl, rfl, rfl, ?_, ?_⟩
  · simp [Obs.getTracesPaginated, Nat.succ_mul]
  · simp only [Obs.getTracesPaginated, Obs.filterSpansByPagination, Obs.sliceList]
    calc (List.take _ (List.drop _ _)).length
        ≤ _ := (List.length_take _ _).trans_le (min_le_left _ _)
      _ ≤ _ := le_of_eq (Nat.add_sub_cancel_left ..)

/-- Claim C4: with a non-empty tags filter, `filterSpansByFilter` (the filter stage
of `getTracesPaginated`) keeps exactly the spans having at least one requested tag,
and every span `getTracesPaginated` returns under such a filter has one. -/
theorem C4_tag_filter_or :
    (∀ (spans : List Obs.SpanRecord) (ts : List String), ts ≠ [] →
      Obs.filterSpansByFilter spans (some { Obs.emptyFilter with tags := some ts }) =
        spans.filter (fun s => Obs.tagMatch ts s.tags)) ∧
    (∀ (c : Obs.Collection) (pg : Option Obs.PaginationArgs) (ts : List String)
        (s : Obs.SpanRecord), ts ≠ [] →
      s ∈ (Obs.getTracesPaginated c (some { Obs.emptyFilter with tags := some ts }) pg).spans →
      Obs.tagMatch ts s.tags = true) := by
  constructor
  · intro spans ts hts
    unfold Obs.filterSpansByFilter
    exact List.filter_congr (fun s _ => Obs.spanPasses_tags_only ts hts s)
  · intro c pg ts s hts hmem
    simp only [Obs.getTracesPaginated, Obs.filterSpansByPagination, Obs.sliceList] at hmem
    have h1 := List.mem_of_mem_drop (List.mem_of_mem_take hmem)
    simp only [Obs.filterSpansByDate] at h1
    have h2 := List.mem_of_mem_filter h1
    simp only [Obs.filterSpansByFilter] at h2
    have h3 := List.of_mem_filter h2
    rwa [Obs.spanPasses_tags_only ts hts s] at h3

/-- Witness for C4: a root span tagged `["a","b"]` matches the filter `["b","c"]`
and not the filter `["c","d"]`. -/
theorem C4_tag_filter_or_witness :
    (["b", "c"] ≠ ([] : List String)) ∧
    Obs.filterSpansByFilter [{ Obs.mkSpan "t" "r" with tags := some ["a", "b"] }]
        (some { Obs.emptyFilter with tags := some ["b", "c"] }) =
      [{ Obs.mkSpan "t" "r" with tags := some ["a", "b"] }].filter
        (fun s => Obs.tagMatch ["b", "c"] s.tags) ∧
    Obs.filterSpansByFilter [{ Obs.mkSpan "t" "r" with tags := some ["a", "b"] }]
        (some { Obs.emptyFilter with tags := some ["c", "d"] }) =
      [{ Obs.mkSpan "t" "r" with tags := some ["a", "b"] }].filter
        (fun s => Obs.tagMatch ["c", "d"] s.tags) ∧
    [{ Obs.mkSpan "t" "r" with tags := some ["a", "b"] }].filter
        (fun s => Obs.tagMatch ["b", "c"] s.tags) =
      [{ Obs.mkSpan "t" "r" with tags := some ["a", "b"] }] ∧
    [{ Obs.mkSpan "t" "r" with tags := some ["a", "b"] }].filter
        (fun s => Obs.tagMatch ["c", "d"] s.tags) = [] :=
  ⟨by decide, C4_tag_filter_or.1 _ _ (by decide), C4_tag_filter_or.1 _ _ (by decide),
    by decide, by decide⟩

/-- Claim C5: the metadata, scope and versionInfo filters of `filterSpansByFilter`
keep a span exactly when every filter pair occurs in the span's corresponding map
with an exactly-equal value; a missing key means no match, as the concrete cases
`{"x":"1"}` against `{"x":"1","y":"2"}` / `{"x":"2"}` / `{}` / absent show. -/
theorem C5_map_subset_filter :
    (∀ (spans : List Obs.SpanRecord) (m : Obs.KV),
      Obs.filterSpansByFilter spans (some { Obs.emptyFilter with metadata := some m }) =
        spans.filter (fun s => Obs.subsetMatch m s.metadata)) ∧
    (∀ (spans : List Obs.SpanRecord) (m : Obs.KV),
      Obs.filterSpansByFilter spans (some { Obs.emptyFilter with scope := some m }) =
        spans.filter (fun s => Obs.subsetMatch m s.scope)) ∧
    (∀ (spans : List Obs.SpanRecord) (m : Obs.KV),
      Obs.filterSpansByFilter spans (some { Obs.emptyFilter with versionInfo := some m }) =
        spans.filter (fun s => Obs.subsetMatch m s.versionInfo)) ∧
    Obs.subsetMatch [("x", "1")] (some [("x", "1"), ("y", "2")]) = true ∧
    Obs.subsetMatch [("x", "1")] (some [("x", "2")]) = false ∧
    Obs.subsetMatch [("x", "1")] (some []) = false ∧
    Obs.subsetMatch [("x", "1")] none = false := by
  refine ⟨?_, ?_, ?_, by decide, by decide, by decide, by decide⟩
  · intro spans m
    unfold Obs.filterSpansByFilter
    refine List.filter_congr (fun s _ => ?_)
    have h := Obs.spanPasses_maps_only (some m) none none s
    simpa using h
  · intro spans m
    unfold Obs.filterSpansByFilter
    refine List.filter_congr (fun s _ => ?_)
    have h := Obs.spanPasses_maps_only none (some m) none s
    simpa using h
  · intro spans m
    unfold Obs.filterSpansByFilter
    refine List.filter_congr (fun s _ => ?_)
    have h := Obs.spanPasses_maps_only none none (some m) s
    simpa using h

/-- Claim C10: `createSpan` raises an error exactly when the given span is missing
(JS-falsy) `spanId` or `traceId`; otherwise — in particular when the `(traceId,
spanId)` composite key is already stored — it does not fail, it overwrites the
stored record and stamps the new record's `createdAt` and `updatedAt` with the
current time. -/
theorem C10_create_span (c : Obs.Collection) (r : Obs.SpanRecord) (now : Int) :
    ((Obs.createSpan c r now).1.isSome ↔ (r.spanId = "" ∨ r.traceId = "")) ∧
    (r.spanId ≠ "" → r.traceId ≠ "" →
      (Obs.createSpan c r now).2 =
        Obs.jsMapSet (Obs.generateId r.traceId r.spanId)
          { r with createdAt := now, updatedAt := now } c ∧
      Obs.jsMapGet (Obs.generateId r.traceId r.spanId) (Obs.createSpan c r now).2 =
        some { r with createdAt := now, updatedAt := now }) := by
  constructor
  · by_cases h1 : r.spanId = "" <;> by_cases h2 : r.traceId = "" <;>
      simp [Obs.createSpan, h1, h2]
  · intro h1 h2
    have heq : (Obs.createSpan c r now).2 =
        Obs.jsMapSet (Obs.generateId r.traceId r.spanId)
          { r with createdAt := now, updatedAt := now } c := by
      simp [Obs.createSpan, h1, h2]
    exact ⟨heq, by rw [heq]; exact Obs.jsMapGet_set_self _ _ _⟩

/-- Witness for C10: recreating the already-stored pair `("t","s")` at time 7 does
not fail and overwrites the record with fresh timestamps. -/
theorem C10_create_span_witness :
    ("s" ≠ "") ∧ ("t" ≠ "") ∧
    ((Obs.createSpan (Obs.createSpan [] (Obs.mkSpan "t" "s") 0).2 (Obs.mkSpan "t" "s") 7).2 =
      Obs.jsMapSet (Obs.generateId "t" "s")
        { Obs.mkSpan "t" "s" with createdAt := 7, updatedAt := 7 }
        (Obs.createSpan [] (Obs.mkSpan "t" "s") 0).2 ∧
    Obs.jsMapGet (Obs.generateId "t" "s")
        (Obs.createSpan (Obs.createSpan [] (Obs.mkSpan "t" "s") 0).2 (Obs.mkSpan "t" "s") 7).2 =
      some { Obs.mkSpan "t" "s" with createdAt := 7, updatedAt := 7 }) :=
  ⟨by decide, by decide,
    (C10_create_span (Obs.createSpan [] (Obs.mkSpan "t" "s") 0).2 (Obs.mkSpan "t" "s") 7).2
      (by decide) (by decide)⟩

/-- Counterexample to claim C6 as stated: `generateId` joins the ids with `"-"`,
so after storing the span of the pair `("a-b","c")`, the pair `("a","b-c")` is
not present in the store, yet `updateSpan` on it does not fail with a
`NotFoundError` and does not leave the collection unchanged — it merges into the
`("a-b","c")` record. -/
theorem C6_counterexample :
    ((Obs.updateSpan (Obs.createSpan [] (Obs.mkSpan "a-b" "c") 0).2
        "a" "b-c" Obs.emptyUpdate 5).1 = none) ∧
    ((Obs.values (Obs.createSpan [] (Obs.mkSpan "a-b" "c") 0).2).all
        (fun r => !(r.traceId == "a" && r.spanId == "b-c")) = true) ∧
    ((Obs.updateSpan (Obs.createSpan [] (Obs.mkSpan "a-b" "c") 0).2
        "a" "b-c" Obs.emptyUpdate 5).2 ≠ (Obs.createSpan [] (Obs.mkSpan "a-b" "c") 0).2) :=
  ⟨by decide, by decide, by decide⟩

/-- Claim C6, amended: provided no stored or queried `traceId`/`spanId` contains
the `"-"` separator of `generateId`, `updateSpan` on a pair not present in the
store fails with the `NotFoundError` and leaves the collection unchanged, and on a
present pair merges the updates into the existing record and refreshes its
`updatedAt` timestamp. -/
theorem C6_update_span (c : Obs.Collection) (t s : String) (u : Obs.UpdateSpanRecord)
    (now : Int) (hwf : Obs.WfColl c) (hdf : Obs.DashFreeColl c)
    (ht : Obs.dashFree t = true) (hs : Obs.dashFree s = true) :
    ((¬ ∃ e ∈ c, e.2.traceId = t ∧ e.2.spanId = s) →
      Obs.updateSpan c t s u now = (some ⟨"OBSERVABILITY_UPDATE_SPAN_NOT_FOUND"⟩, c)) ∧
    (∀ k r, (k, r) ∈ c → r.traceId = t → r.spanId = s →
      Obs.updateSpan c t s u now =
        (none, Obs.jsMapSet (Obs.generateId t s) (Obs.applyUpdates r u now) c) ∧
      Obs.jsMapGet (Obs.generateId t s) (Obs.updateSpan c t s u now).2 =
        some (Obs.applyUpdates r u now) ∧
      (Obs.applyUpdates r u now).updatedAt = now) := by
  constructor
  · intro hne
    have hg : Obs.jsMapGet (Obs.generateId t s) c = none := by
      rw [Obs.jsMapGet_eq_none]
      intro e he hk
      have hk' : e.1 = Obs.generateId e.2.traceId e.2.spanId := hwf.1 e he
      have he' := hdf e he
      have heq : Obs.generateId e.2.traceId e.2.spanId = Obs.generateId t s := by
        rw [← hk', hk]
      have hp := Obs.generateId_inj he'.1 ht heq
      exact hne ⟨e, he, hp⟩
    simp [Obs.updateSpan, hg]
  · intro k r hm h1 h2
    have hk : k = Obs.generateId t s := by
      have h := hwf.1 _ hm
      simpa [h1, h2] using h
    have hg : Obs.jsMapGet (Obs.generateId t s) c = some r :=
      Obs.jsMapGet_eq_of_mem hwf.2 (hk ▸ hm)
    have heq : Obs.updateSpan c t s u now =
        (none, Obs.jsMapSet (Obs.generateId t s) (Obs.applyUpdates r u now) c) := by
      simp [Obs.updateSpan, hg]
    refine ⟨heq, ?_, rfl⟩
    rw [heq]
    exact Obs.jsMapGet_set_self _ _ _

/-- Witness for C6 (amended): in a store holding only the pair `("t","s")`,
updating the absent pair `("t","x")` fails leaving the store unchanged, and
updating `("t","s")` merges in place. -/
theorem C6_update_span_witness :
    (Obs.updateSpan (Obs.createSpan [] (Obs.mkSpan "t" "s") 0).2 "t" "x" Obs.emptyUpdate 5 =
      (some ⟨"OBSERVABILITY_UPDATE_SPAN_NOT_FOUND"⟩, (Obs.createSpan [] (Obs.mkSpan "t" "s") 0).2)) ∧
    (Obs.updateSpan (Obs.createSpan [] (Obs.mkSpan "t" "s") 0).2 "t" "s" Obs.emptyUpdate 5 =
      (none, Obs.jsMapSet (Obs.generateId "t" "s")
        (Obs.applyUpdates (Obs.mkSpan "t" "s") Obs.emptyUpdate 5)
        (Obs.createSpan [] (Obs.mkSpan "t" "s") 0).2)) :=
  ⟨(C6_update_span (Obs.createSpan [] (Obs.mkSpan "t" "s") 0).2 "t" "x" Obs.emptyUpdate 5
      (by decide) (by decide) (by decide) (by decide)).1 (by decide),
   ((C6_update_span (Obs.createSpan [] (Obs.mkSpan "t" "s") 0).2 "t" "s" Obs.emptyUpdate 5
      (by decide) (by decide) (by decide) (by decide)).2
      (Obs.generateId "t" "s") (Obs.mkSpan "t" "s") (by decide) rfl rfl).1⟩

/-- Counterexample to claim C7 as stated: `generateId` joins the ids with `"-"`,
so creating the pair `("a","b-c")` replaces the record of the distinct pair
`("a-b","c")`: after the two creates only one record remains and the pair
`("a-b","c")` — present after the first create — is gone. -/
theorem C7_counterexample :
    Obs.pairCount "a-b" "c" (Obs.runOps [] [.create (Obs.mkSpan "a-b" "c") 0]) = 1 ∧
    (Obs.values (Obs.runOps []
        [.create (Obs.mkSpan "a-b" "c") 0, .create (Obs.mkSpan "a" "b-c") 1])).length = 1 ∧
    (Obs.values (Obs.runOps []
        [.create (Obs.mkSpan "a-b" "c") 0, .create (Obs.mkSpan "a" "b-c") 1])).all
      (fun r => !(r.traceId == "a-b" && r.spanId == "c")) = true :=
  ⟨by decide, by decide, by decide⟩

/-- Claim C7, amended: provided no `traceId`/`spanId` contains the `"-"` separator
of `generateId`, any sequence of `createSpan`, `batchCreateSpans`, `updateSpan`
and `batchDeleteTraces` operations keeps the store well-keyed with at most one
record per `(traceId, spanId)` pair, and each operation preserves every record of
a pair it does not address: `createSpan` and `updateSpan` keep all records of
other pairs, `batchDeleteTraces` keeps all records of unlisted traces, and
`batchCreateSpans` keeps all records of pairs not in its batch. -/
theorem C7_unique_pairs :
    (∀ (ops : List Obs.Op) (c : Obs.Collection), Obs.WfColl c → Obs.DashFreeColl c →
      (∀ op ∈ ops, Obs.dashFreeOp op = true) →
      Obs.WfColl (Obs.runOps c ops) ∧ ∀ t s, Obs.pairCount t s (Obs.runOps c ops) ≤ 1) ∧
    (∀ (c : Obs.Collection) (r : Obs.SpanRecord) (now : Int) (k' : String)
        (v' : Obs.SpanRecord), Obs.WfColl c → Obs.DashFreeColl c →
      Obs.dashFree r.traceId = true → Obs.dashFree r.spanId = true →
      (k', v') ∈ c → ¬(v'.traceId = r.traceId ∧ v'.spanId = r.spanId) →
      (k', v') ∈ (Obs.createSpan c r now).2) ∧
    (∀ (c : Obs.Collection) (t s : String) (u : Obs.UpdateSpanRecord) (now : Int)
        (k' : String) (v' : Obs.SpanRecord), Obs.WfColl c → Obs.DashFreeColl c →
      Obs.dashFree t = true → Obs.dashFree s = true →
      (k', v') ∈ c → ¬(v'.traceId = t ∧ v'.spanId = s) →
      (k', v') ∈ (Obs.updateSpan c t s u now).2) ∧
    (∀ (c : Obs.Collection) (tids : List String) (k' : String) (v' : Obs.SpanRecord),
      Obs.WfColl c → Obs.DashFreeColl c → (k', v') ∈ c → v'.traceId ∉ tids →
      (k', v') ∈ Obs.batchDeleteTraces c tids) ∧
    (∀ (c : Obs.Collection) (rs : List Obs.SpanRecord) (now : Int) (k' : String)
        (v' : Obs.SpanRecord), Obs.WfColl c → Obs.DashFreeColl c →
      (∀ r ∈ rs, Obs.dashFree r.traceId = true ∧ Obs.dashFree r.spanId = true) →
      (k', v') ∈ c → (∀ r ∈ rs, ¬(v'.traceId = r.traceId ∧ v'.spanId = r.spanId)) →
      (k', v') ∈ (Obs.batchCreateSpans c rs now).2) := by
  refine ⟨?_, ?_, ?_, ?_, ?_⟩
  · intro ops c hwf hdf hall
    have h := Obs.wf_runOps hwf hdf hall
    exact ⟨h.1, fun t s => Obs.pairCount_le_one h.1 h.2 t s⟩
  · intro c r now k' v' hwf hdf ht hs hm hne
    exact Obs.frame_createSpan hwf hdf ⟨ht, hs⟩ hm hne
  · intro c t s u now k' v' hwf hdf ht hs hm hne
    exact Obs.frame_updateSpan hwf hdf ht hs hm hne
  · intro c tids k' v' hwf hdf hm hni
    exact Obs.frame_batchDeleteTraces hwf hdf hm hni
  · intro c rs now k' v' hwf hdf hall hm hne
    exact Obs.frame_batchCreateSpans hwf hdf hall hm hne

/-- Witness for C7 (amended) on a concrete dash-free history: two creates, an
update, a batch create and a trace deletion. -/
theorem C7_unique_pairs_witness :
    Obs.WfColl (Obs.runOps []
      [.create (Obs.mkSpan "t1" "root") 0, .create (Obs.mkSpan "t1" "child") 1,
       .update "t1" "root" Obs.emptyUpdate 2,
       .batchCreate [Obs.mkSpan "t2" "root"] 3, .deleteTraces ["t1"]]) ∧
    (∀ t s, Obs.pairCount t s (Obs.runOps []
      [.create (Obs.mkSpan "t1" "root") 0, .create (Obs.mkSpan "t1" "child") 1,
       .update "t1" "root" Obs.emptyUpdate 2,
       .batchCreate [Obs.mkSpan "t2" "root"] 3, .deleteTraces ["t1"]]) ≤ 1) :=
  C7_unique_pairs.1
    [.create (Obs.mkSpan "t1" "root") 0, .create (Obs.mkSpan "t1" "child") 1,
     .update "t1" "root" Obs.emptyUpdate 2,
     .batchCreate [Obs.mkSpan "t2" "root"] 3, .deleteTraces ["t1"]]
    [] (by decide) (by decide) (by decide)

namespace QP

theorem parse_error_of_ne {q : Query} (h : parseErrors q ≠ []) :
    parseTracesQueryParams q = .error (parseErrors q) := by
  unfold parseTracesQueryParams
  rw [if_neg]
  simpa [List.isEmpty_iff] using h

theorem parse_error_of_mem {q : Query} {e : VError} (h : e ∈ parseErrors q) :
    parseTracesQueryParams q = .error (parseErrors q) :=
  parse_error_of_ne (List.ne_nil_of_mem h)

theorem filterMap_all_some {α β : Type} (f : α → β) (l : List α) :
    l.filterMap (fun a => some (f a)) = l.map f := by
  induction l with
  | nil => rfl
  | cons a rest ih => simp [List.filterMap_cons, ih]

theorem collect_append (k : String) (a b : Query) :
    collect k (a ++ b) = collect k a ++ collect k b := by
  simp [collect, List.filterMap_append]

theorem collect_eq_nil {k : String} {q : Query} (h : ∀ t ∈ q, topKey t.1 ≠ k) :
    collect k q = [] := by
  rw [collect, List.filterMap_eq_nil_iff]
  intro t ht
  rcases t with ⟨p, v⟩
  cases p with
  | flat k' =>
    have hk : k' ≠ k := h _ ht
    simp [hk]
  | nested k' sub =>
    have hk : k' ≠ k := h _ ht
    simp [hk]

theorem mem_topKeys_iff_collect (k : String) (q : Query) :
    (k ∈ q.map (fun t => topKey t.1)) ↔ collect k q ≠ [] := by
  induction q with
  | nil => simp [collect]
  | cons t rest ih =>
    rcases t with ⟨p, v⟩
    cases p with
    | flat k' =>
      by_cases hk : k' = k
      · simp [collect, List.filterMap_cons, hk, topKey]
      · simpa [collect, List.filterMap_cons, hk, topKey, Ne.symm hk] using ih
    | nested k' sub =>
      by_cases hk : k' = k
      · simp [collect, List.filterMap_cons, hk, topKey]
      · simpa [collect, List.filterMap_cons, hk, topKey, Ne.symm hk] using ih

theorem jsLookup_cons {α : Type} (k k' : String) (v : α) (rest : List (String × α)) :
    jsLookup k ((k', v) :: rest) = if k' == k then some v else jsLookup k rest := by
  by_cases h : k' == k <;> simp [jsLookup, List.find?_cons, h]

theorem jsLookup_map_keyfn {α : Type} (l : List String) (f : String → α) (k : String) :
    jsLookup k (l.map (fun k' => (k', f k'))) = if k ∈ l then some (f k) else none := by
  induction l with
  | nil => simp [jsLookup]
  | cons a rest ih =>
    by_cases ha : a = k
    · subst ha
      simp [List.map_cons, jsLookup_cons]
    · have hb : (a == k) = false := by simp [ha]
      simp only [List.map_cons, jsLookup_cons, hb, if_false]
      rw [ih]
      simp [List.mem_cons, ha, Ne.symm ha]

theorem jsLookup_qsParse (k : String) (q : Query) :
    jsLookup k (qsParse q) =
      if k ∈ q.map (fun t => topKey t.1) then some (buildPVal (collect k q)) else none := by
  rw [qsParse, jsLookup_map_keyfn]
  by_cases h : k ∈ (q.map (fun t => topKey t.1))
  · rw [if_pos (List.mem_dedup.mpr h), if_pos h]
  · rw [if_neg (fun hm => h (List.mem_dedup.mp hm)), if_neg h]

theorem jsLookup_qsParse_collect (k : String) (q : Query) :
    jsLookup k (qsParse q) =
      if collect k q = [] then none else some (buildPVal (collect k q)) := by
  rw [jsLookup_qsParse]
  by_cases h : collect k q = []
  · rw [if_pos h, if_neg (fun hm => (mem_topKeys_iff_collect k q).mp hm h)]
  · rw [if_neg h, if_pos ((mem_topKeys_iff_collect k q).mpr h)]

theorem optFlat_topKey {α : Type} (k0 : String) (f : α → QVal) (ov : Option α) :
    ∀ t ∈ optFlat k0 f ov, topKey t.1 = k0 := by
  cases ov <;> simp [optFlat, topKey]

theorem dateRangeSeg_topKey (k0 : String) (dr : Option DateRange) :
    ∀ t ∈ dateRangeSeg k0 dr, topKey t.1 = k0 := by
  cases dr with
  | none => simp [dateRangeSeg]
  | some dr =>
    rcases dr with ⟨s, e⟩
    cases s <;> cases e <;> simp [dateRangeSeg, topKey]

theorem tagsSeg_topKey (ts : Option (List String)) :
    ∀ t ∈ tagsSeg ts, topKey t.1 = "tags" := by
  cases ts with
  | none => simp [tagsSeg]
  | some ts =>
    by_cases hl : ts.length > 0
    · intro t ht
      simp only [tagsSeg, if_pos hl] at ht
      rcases List.mem_map.mp ht with ⟨it, _, rfl⟩
      simp [topKey]
    · simp [tagsSeg, hl]

theorem mapSeg_topKey (k0 : String) (m : Option KV) :
    ∀ t ∈ mapSeg k0 m, topKey t.1 = k0 := by
  cases m with
  | none => simp [mapSeg]
  | some m =>
    by_cases hl : m.length > 0
    · intro t ht
      simp only [mapSeg, if_pos hl] at ht
      rcases List.mem_map.mp ht with ⟨kv, _, rfl⟩
      simp [topKey]
    · simp [mapSeg, hl]

theorem orderBySeg_topKey (ob : Option TracesOrderBy) :
    ∀ t ∈ orderBySeg ob, topKey t.1 = "orderBy" := by
  cases ob with
  | none => simp [orderBySeg]
  | some ob =>
    rcases ob with ⟨f, d⟩
    cases f <;> cases d <;> simp [orderBySeg, topKey]

theorem pagSeg_topKey (po : Option PaginationArgs) :
    ∀ t ∈ pagSeg po, topKey t.1 = "page" ∨ topKey t.1 = "perPage" := by
  cases po with
  | none => simp [pagSeg]
  | some pg =>
    intro t ht
    rcases List.mem_append.mp ht with h | h
    · exact Or.inl (optFlat_topKey _ _ _ _ h)
    · exact Or.inr (optFlat_topKey _ _ _ _ h)

theorem collect_optFlat_ne {α : Type} {k0 k : String} (f : α → QVal) (ov : Option α)
    (h : ¬(k0 = k)) : collect k (optFlat k0 f ov) = [] :=
  collect_eq_nil (fun t ht he => h ((optFlat_topKey k0 f ov t ht).symm.trans he))

theorem collect_optFlat_self {α : Type} (k0 : String) (f : α → QVal) (ov : Option α) :
    collect k0 (optFlat k0 f ov) =
      (match ov with | none => [] | some v => [Sum.inl (f v)]) := by
  cases ov <;> simp [optFlat, collect]

theorem collect_dateRangeSeg_ne {k0 k : String} (dr : Option DateRange) (h : ¬(k0 = k)) :
    collect k (dateRangeSeg k0 dr) = [] :=
  collect_eq_nil (fun t ht he => h ((dateRangeSeg_topKey k0 dr t ht).symm.trans he))

theorem collect_dateRangeSeg_self (k0 : String) (dr : Option DateRange) :
    collect k0 (dateRangeSeg k0 dr) =
      (match dr with
       | none => []
       | some dr =>
         (match dr.start with | none => [] | some d => [Sum.inr (("start", QVal.date d))]) ++
         (match dr.stop with | none => [] | some d => [Sum.inr (("end", QVal.date d))])) := by
  cases dr with
  | none => rfl
  | some dr =>
    rcases dr with ⟨s, e⟩
    cases s <;> cases e <;> simp [dateRangeSeg, collect]

theorem collect_tagsSeg_ne {k : String} (ts : Option (List String)) (h : ¬("tags" = k)) :
    collect k (tagsSeg ts) = [] :=
  collect_eq_nil (fun t ht he => h ((tagsSeg_topKey ts t ht).symm.trans he))

theorem collect_tagsSeg_self (ts : Option (List String)) :
    collect "tags" (tagsSeg ts) =
      (match ts with
       | none => []
       | some ts =>
         if ts.length > 0 then
           ts.enum.map (fun it => Sum.inr ((Nat.repr it.1, QVal.str it.2)))
         else []) := by
  cases ts with
  | none => rfl
  | some ts =>
    by_cases hl : ts.length > 0
    · simp only [tagsSeg, if_pos hl, collect, List.filterMap_map]
      have hcomp : ((fun pv => match pv with
          | (Path.flat k', v) => if k' = "tags" then some (Sum.inl v) else none
          | (Path.nested k' sub, v) => if k' = "tags" then some (Sum.inr (sub, v)) else none) ∘
            fun it : Nat × String => (Path.nested "tags" (Nat.repr it.1), QVal.str it.2)) =
          fun it : Nat × String => some (Sum.inr ((Nat.repr it.1, QVal.str it.2))) := by
        funext it
        simp
      rw [hcomp, filterMap_all_some]
    · simp [tagsSeg, hl, collect]

theorem collect_mapSeg_ne {k0 k : String} (m : Option KV) (h : ¬(k0 = k)) :
    collect k (mapSeg k0 m) = [] :=
  collect_eq_nil (fun t ht he => h ((mapSeg_topKey k0 m t ht).symm.trans he))

theorem collect_mapSeg_self (k0 : String) (m : Option KV) :
    collect k0 (mapSeg k0 m) =
      (match m with
       | none => []
       | some m =>
         if m.length > 0 then m.map (fun kv => Sum.inr ((kv.1, QVal.str kv.2))) else []) := by
  cases m with
  | none => rfl
  | some m =>
    by_cases hl : m.length > 0
    · simp only [mapSeg, if_pos hl, collect, List.filterMap_map]
      have hcomp : ((fun pv => match pv with
          | (Path.flat k', v) => if k' = k0 then some (Sum.inl v) else none
          | (Path.nested k' sub, v) => if k' = k0 then some (Sum.inr (sub, v)) else none) ∘
            fun kv : String × String => (Path.nested k0 kv.1, QVal.str kv.2)) =
          fun kv : String × String => some (Sum.inr ((kv.1, QVal.str kv.2))) := by
        funext kv
        simp
      rw [hcomp, filterMap_all_some]
    · simp [mapSeg, hl, collect]

theorem collect_orderBySeg_ne {k : String} (ob : Option TracesOrderBy) (h : ¬("orderBy" = k)) :
    collect k (orderBySeg ob) = [] :=
  collect_eq_nil (fun t ht he => h ((orderBySeg_topKey ob t ht).symm.trans he))

theorem collect_orderBySeg_self (ob : Option TracesOrderBy) :
    collect "orderBy" (orderBySeg ob) =
      (match ob with
       | none => []
       | some ob =>
         (match ob.field with
          | none => []
          | some f => [Sum.inr (("field", QVal.str f.toStr))]) ++
         (match ob.direction with
          | none => []
          | some d => [Sum.inr (("direction", QVal.str d.toStr))])) := by
  cases ob with
  | none => rfl
  | some ob =>
    rcases ob with ⟨f, d⟩
    cases f <;> cases d <;> simp [orderBySeg, collect]

theorem collect_pagSeg_ne {k : String} (po : Option PaginationArgs)
    (h1 : ¬("page" = k)) (h2 : ¬("perPage" = k)) : collect k (pagSeg po) = [] := by
  refine collect_eq_nil (fun t ht he => ?_)
  rcases pagSeg_topKey po t ht with hk | hk
  · exact h1 (hk.symm.trans he)
  · exact h2 (hk.symm.trans he)

theorem collect_filtersSegOpt_other {fo : Option TracesFilter} {k : String}
    (hk : k ∉ (["spanType", "entityType", "entityId", "entityName", "userId",
      "organizationId", "resourceId", "runId", "sessionId", "threadId", "requestId",
      "environment", "source", "serviceName", "deploymentId", "status", "hasChildError",
      "startedAt", "endedAt", "tags", "metadata", "scope", "versionInfo"] : List String)) :
    collect k (filtersSegOpt fo) = [] := by
  have mk : ∀ k0 : String, k0 ∈ (["spanType", "entityType", "entityId", "entityName",
      "userId", "organizationId", "resourceId", "runId", "sessionId", "threadId",
      "requestId", "environment", "source", "serviceName", "deploymentId", "status",
      "hasChildError", "startedAt", "endedAt", "tags", "metadata", "scope",
      "versionInfo"] : List String) → ¬(k0 = k) :=
    fun k0 hmem he => hk (he ▸ hmem)
  cases fo with
  | none => rfl
  | some f =>
    simp only [filtersSegOpt, filtersSeg, collect_append]
    rw [collect_optFlat_ne _ _ (mk _ (by decide)), collect_optFlat_ne _ _ (mk _ (by decide)),
      collect_optFlat_ne _ _ (mk _ (by decide)), collect_optFlat_ne _ _ (mk _ (by decide)),
      collect_optFlat_ne _ _ (mk _ (by decide)), collect_optFlat_ne _ _ (mk _ (by decide)),
      collect_optFlat_ne _ _ (mk _ (by decide)), collect_optFlat_ne _ _ (mk _ (by decide)),
      collect_optFlat_ne _ _ (mk _ (by decide)), collect_optFlat_ne _ _ (mk _ (by decide)),
      collect_optFlat_ne _ _ (mk _ (by decide)), collect_optFlat_ne _ _ (mk _ (by decide)),
      collect_optFlat_ne _ _ (mk _ (by decide)), collect_optFlat_ne _ _ (mk _ (by decide)),
      collect_optFlat_ne _ _ (mk _ (by decide)), collect_optFlat_ne _ _ (mk _ (by decide)),
      collect_optFlat_ne _ _ (mk _ (by decide)),
      collect_dateRangeSeg_ne _ (mk _ (by decide)), collect_dateRangeSeg_ne _ (mk _ (by decide)),
      collect_tagsSeg_ne _ (mk _ (by decide)),
      collect_mapSeg_ne _ (mk _ (by decide)), collect_mapSeg_ne _ (mk _ (by decide)),
      collect_mapSeg_ne _ (mk _ (by decide))]
    simp

theorem spanStatus_ofStr_toStr (e : SpanStatus) : SpanStatus.ofStr e.toStr = some e := by
  cases e <;> rfl

theorem spanEntityType_ofStr_toStr (e : SpanEntityType) :
    SpanEntityType.ofStr e.toStr = some e := by
  cases e <;> rfl

theorem spanType_ofStr_toStr (e : SpanType) : SpanType.ofStr e.toStr = some e := by
  cases e <;> rfl

theorem orderField_ofStr_toStr (e : OrderField) : OrderField.ofStr e.toStr = some e := by
  cases e <;> rfl

theorem sortDir_ofStr_toStr (e : SortDir) : SortDir.ofStr e.toStr = some e := by
  cases e <;> rfl

theorem look_spanType (x : TracesPaginatedArg) :
    jsLookup "spanType" (qsParse (serializeTracesParams x)) =
      (x.filters.bind (fun f => f.spanType)).map (fun v => PVal.scalar (QVal.str v.toStr)) := by
  rw [jsLookup_qsParse_collect]
  have hp : collect "spanType" (pagSeg x.pagination) = [] :=
    collect_pagSeg_ne _ (by decide) (by decide)
  have ho : collect "spanType" (orderBySeg x.orderBy) = [] :=
    collect_orderBySeg_ne _ (by decide)
  rcases hf : x.filters with _ | f
  · simp [serializeTracesParams, collect_append, hp, ho, hf, filtersSegOpt]
  · rcases hv : f.spanType with _ | v <;>
      simp [serializeTracesParams, collect_append, hp, ho, hf, filtersSegOpt, filtersSeg,
        collect_optFlat_ne, collect_optFlat_self, collect_dateRangeSeg_ne, collect_tagsSeg_ne,
        collect_mapSeg_ne, hv, buildPVal]

theorem look_entityType (x : TracesPaginatedArg) :
    jsLookup "entityType" (qsParse (serializeTracesParams x)) =
      (x.filters.bind (fun f => f.entityType)).map (fun v => PVal.scalar (QVal.str v.toStr)) := by
  rw [jsLookup_qsParse_collect]
  have hp : collect "entityType" (pagSeg x.pagination) = [] :=
    collect_pagSeg_ne _ (by decide) (by decide)
  have ho : collect "entityType" (orderBySeg x.orderBy) = [] :=
    collect_orderBySeg_ne _ (by decide)
  rcases hf : x.filters with _ | f
  · simp [serializeTracesParams, collect_append, hp, ho, hf, filtersSegOpt]
  · rcases hv : f.entityType with _ | v <;>
      simp [serializeTracesParams, collect_append, hp, ho, hf, filtersSegOpt, filtersSeg,
        collect_optFlat_ne, collect_optFlat_self, collect_dateRangeSeg_ne, collect_tagsSeg_ne,
        collect_mapSeg_ne, hv, buildPVal]

theorem look_entityId (x : TracesPaginatedArg) :
    jsLookup "entityId" (qsParse (serializeTracesParams x)) =
      (x.filters.bind (fun f => f.entityId)).map (fun v => PVal.scalar (QVal.str v)) := by
  rw [jsLookup_qsParse_collect]
  have hp : collect "entityId" (pagSeg x.pagination) = [] :=
    collect_pagSeg_ne _ (by decide) (by decide)
  have ho : collect "entityId" (orderBySeg x.orderBy) = [] :=
    collect_orderBySeg_ne _ (by decide)
  rcases hf : x.filters with _ | f
  · simp [serializeTracesParams, collect_append, hp, ho, hf, filtersSegOpt]
  · rcases hv : f.entityId with _ | v <;>
      simp [serializeTracesParams, collect_append, hp, ho, hf, filtersSegOpt, filtersSeg,
        collect_optFlat_ne, collect_optFlat_self, collect_dateRangeSeg_ne, collect_tagsSeg_ne,
        collect_mapSeg_ne, hv, buildPVal]

theorem look_entityName (x : TracesPaginatedArg) :
    jsLookup "entityName" (qsParse (serializeTracesParams x)) =
      (x.filters.bind (fun f => f.entityName)).map (fun v => PVal.scalar (QVal.str v)) := by
  rw [jsLookup_qsParse_collect]
  have hp : collect "entityName" (pagSeg x.pagination) = [] :=
    collect_pagSeg_ne _ (by decide) (by decide)
  have ho : collect "entityName" (orderBySeg x.orderBy) = [] :=
    collect_orderBySeg_ne _ (by decide)
  rcases hf : x.filters with _ | f
  · simp [serializeTracesParams, collect_append, hp, ho, hf, filtersSegOpt]
  · rcases hv : f.entityName with _ | v <;>
      simp [serializeTracesParams, collect_append, hp, ho, hf, filtersSegOpt, filtersSeg,
        collect_optFlat_ne, collect_optFlat_self, collect_dateRangeSeg_ne, collect_tagsSeg_ne,
        collect_mapSeg_ne, hv, buildPVal]

theorem look_userId (x : TracesPaginatedArg) :
    jsLookup "userId" (qsParse (serializeTracesParams x)) =
      (x.filters.bind (fun f => f.userId)).map (fun v => PVal.scalar (QVal.str v)) := by
  rw [jsLookup_qsParse_collect]
  have hp : collect "userId" (pagSeg x.pagination) = [] :=
    collect_pagSeg_ne _ (by decide) (by decide)
  have ho : collect "userId" (orderBySeg x.orderBy) = [] :=
    collect_orderBySeg_ne _ (by decide)
  rcases hf : x.filters with _ | f
  · simp [serializeTracesParams, collect_append, hp, ho, hf, filtersSegOpt]
  · rcases hv : f.userId with _ | v <;>
      simp [serializeTracesParams, collect_append, hp, ho, hf, filtersSegOpt, filtersSeg,
        collect_optFlat_ne, collect_optFlat_self, collect_dateRangeSeg_ne, collect_tagsSeg_ne,
        collect_mapSeg_ne, hv, buildPVal]

theorem look_organizationId (x : TracesPaginatedArg) :
    jsLookup "organizationId" (qsParse (serializeTracesParams x)) =
      (x.filters.bind (fun f => f.organizationId)).map (fun v => PVal.scalar (QVal.str v)) := by
  rw [jsLookup_qsParse_collect]
  have hp : collect "organizationId" (pagSeg x.pagination) = [] :=
    collect_pagSeg_ne _ (by decide) (by decide)
  have ho : collect "organizationId" (orderBySeg x.orderBy) = [] :=
    collect_orderBySeg_ne _ (by decide)
  rcases hf : x.filters with _ | f
  · simp [serializeTracesParams, collect_append, hp, ho, hf, filtersSegOpt]
  · rcases hv : f.organizationId with _ | v <;>
      simp [serializeTracesParams, collect_append, hp, ho, hf, filtersSegOpt, filtersSeg,
        collect_optFlat_ne, collect_optFlat_self, collect_dateRangeSeg_ne, collect_tagsSeg_ne,
        collect_mapSeg_ne, hv, buildPVal]

theorem look_resourceId (x : TracesPaginatedArg) :
    jsLookup "resourceId" (qsParse (serializeTracesParams x)) =
      (x.filters.bind (fun f => f.resourceId)).map (fun v => PVal.scalar (QVal.str v)) := by
  rw [jsLookup_qsParse_collect]
  have hp : collect "resourceId" (pagSeg x.pagination) = [] :=
    collect_pagSeg_ne _ (by decide) (by decide)
  have ho : collect "resourceId" (orderBySeg x.orderBy) = [] :=
    collect_orderBySeg_ne _ (by decide)
  rcases hf : x.filters with _ | f
  · simp [serializeTracesParams, collect_append, hp, ho, hf, filtersSegOpt]
  · rcases hv : f.resourceId with _ | v <;>
      simp [serializeTracesParams, collect_append, hp, ho, hf, filtersSegOpt, filtersSeg,
        collect_optFlat_ne, collect_optFlat_self, collect_dateRangeSeg_ne, collect_tagsSeg_ne,
        collect_mapSeg_ne, hv, buildPVal]

theorem look_runId (x : TracesPaginatedArg) :
    jsLookup "runId" (qsParse (serializeTracesParams x)) =
      (x.filters.bind (fun f => f.runId)).map (fun v => PVal.scalar (QVal.str v)) := by
  rw [jsLookup_qsParse_collect]
  have hp : collect "runId" (pagSeg x.pagination) = [] :=
    collect_pagSeg_ne _ (by decide) (by decide)
  have ho : collect "runId" (orderBySeg x.orderBy) = [] :=
    collect_orderBySeg_ne _ (by decide)
  rcases hf : x.filters with _ | f
  · simp [serializeTracesParams, collect_append, hp, ho, hf, filtersSegOpt]
  · rcases hv : f.runId with _ | v <;>
      simp [serializeTracesParams, collect_append, hp, ho, hf, filtersSegOpt, filtersSeg,
        collect_optFlat_ne, collect_optFlat_self, collect_dateRangeSeg_ne, collect_tagsSeg_ne,
        collect_mapSeg_ne, hv, buildPVal]

theorem look_sessionId (x : TracesPaginatedArg) :
    jsLookup "sessionId" (qsParse (serializeTracesParams x)) =
      (x.filters.bind (fun f => f.sessionId)).map (fun v => PVal.scalar (QVal.str v)) := by
  rw [jsLookup_qsParse_collect]
  have hp : collect "sessionId" (pagSeg x.pagination) = [] :=
    collect_pagSeg_ne _ (by decide) (by decide)
  have ho : collect "sessionId" (orderBySeg x.orderBy) = [] :=
    collect_orderBySeg_ne _ (by decide)
  rcases hf : x.filters with _ | f
  · simp [serializeTracesParams, collect_append, hp, ho, hf, filtersSegOpt]
  · rcases hv : f.sessionId with _ | v <;>
      simp [serializeTracesParams, collect_append, hp, ho, hf, filtersSegOpt, filtersSeg,
        collect_optFlat_ne, collect_optFlat_self, collect_dateRangeSeg_ne, collect_tagsSeg_ne,
        collect_mapSeg_ne, hv, buildPVal]

theorem look_threadId (x : TracesPaginatedArg) :
    jsLookup "threadId" (qsParse (serializeTracesParams x)) =
      (x.filters.bind (fun f => f.threadId)).map (fun v => PVal.scalar (QVal.str v)) := by
  rw [jsLookup_qsParse_collect]
  have hp : collect "threadId" (pagSeg x.pagination) = [] :=
    collect_pagSeg_ne _ (by decide) (by decide)
  have ho : collect "threadId" (orderBySeg x.orderBy) = [] :=
    collect_orderBySeg_ne _ (by decide)
  rcases hf : x.filters with _ | f
  · simp [serializeTracesParams, collect_append, hp, ho, hf, filtersSegOpt]
  · rcases hv : f.threadId with _ | v <;>
      simp [serializeTracesParams, collect_append, hp, ho, hf, filtersSegOpt, filtersSeg,
        collect_optFlat_ne, collect_optFlat_self, collect_dateRangeSeg_ne, collect_tagsSeg_ne,
        collect_mapSeg_ne, hv, buildPVal]

theorem look_requestId (x : TracesPaginatedArg) :
    jsLookup "requestId" (qsParse (serializeTracesParams x)) =
      (x.filters.bind (fun f => f.requestId)).map (fun v => PVal.scalar (QVal.str v)) := by
  rw [jsLookup_qsParse_collect]
  have hp : collect "requestId" (pagSeg x.pagination) = [] :=
    collect_pagSeg_ne _ (by decide) (by decide)
  have ho : collect "requestId" (orderBySeg x.orderBy) = [] :=
    collect_orderBySeg_ne _ (by decide)
  rcases hf : x.filters with _ | f
  · simp [serializeTracesParams, collect_append, hp, ho, hf, filtersSegOpt]
  · rcases hv : f.requestId with _ | v <;>
      simp [serializeTracesParams, collect_append, hp, ho, hf, filtersSegOpt, filtersSeg,
        collect_optFlat_ne, collect_optFlat_self, collect_dateRangeSeg_ne, collect_tagsSeg_ne,
        collect_mapSeg_ne, hv, buildPVal]

theorem look_environment (x : TracesPaginatedArg) :
    jsLookup "environment" (qsParse (serializeTracesParams x)) =
      (x.filters.bind (fun f => f.environment)).map (fun v => PVal.scalar (QVal.str v)) := by
  rw [jsLookup_qsParse_collect]
  have hp : collect "environment" (pagSeg x.pagination) = [] :=
    collect_pagSeg_ne _ (by decide) (by decide)
  have ho : collect "environment" (orderBySeg x.orderBy) = [] :=
    collect_orderBySeg_ne _ (by decide)
  rcases hf : x.filters with _ | f
  · simp [serializeTracesParams, collect_append, hp, ho, hf, filtersSegOpt]
  · rcases hv : f.environment with _ | v <;>
      simp [serializeTracesParams, collect_append, hp, ho, hf, filtersSegOpt, filtersSeg,
        collect_optFlat_ne, collect_optFlat_self, collect_dateRangeSeg_ne, collect_tagsSeg_ne,
        collect_mapSeg_ne, hv, buildPVal]

theorem look_source (x : TracesPaginatedArg) :
    jsLookup "source" (qsParse (serializeTracesParams x)) =
      (x.filters.bind (fun f => f.source)).map (fun v => PVal.scalar (QVal.str v)) := by
  rw [jsLookup_qsParse_collect]
  have hp : collect "source" (pagSeg x.pagination) = [] :=
    collect_pagSeg_ne _ (by decide) (by decide)
  have ho : collect "source" (orderBySeg x.orderBy) = [] :=
    collect_orderBySeg_ne _ (by decide)
  rcases hf : x.filters with _ | f
  · simp [serializeTracesParams, collect_append, hp, ho, hf, filtersSegOpt]
  · rcases hv : f.source with _ | v <;>
      simp [serializeTracesParams, collect_append, hp, ho, hf, filtersSegOpt, filtersSeg,
        collect_optFlat_ne, collect_optFlat_self, collect_dateRangeSeg_ne, collect_tagsSeg_ne,
        collect_mapSeg_ne, hv, buildPVal]

theorem look_serviceName (x : TracesPaginatedArg) :
    jsLookup "serviceName" (qsParse (serializeTracesParams x)) =
      (x.filters.bind (fun f => f.serviceName)).map (fun v => PVal.scalar (QVal.str v)) := by
  rw [jsLookup_qsParse_collect]
  have hp : collect "serviceName" (pagSeg x.pagination) = [] :=
    collect_pagSeg_ne _ (by decide) (by decide)
  have ho : collect "serviceName" (orderBySeg x.orderBy) = [] :=
    collect_orderBySeg_ne _ (by decide)
  rcases hf : x.filters with _ | f
  · simp [serializeTracesParams, collect_append, hp, ho, hf, filtersSegOpt]
  · rcases hv : f.serviceName with _ | v <;>
      simp [serializeTracesParams, collect_append, hp, ho, hf, filtersSegOpt, filtersSeg,
        collect_optFlat_ne, collect_optFlat_self, collect_dateRangeSeg_ne, collect_tagsSeg_ne,
        collect_mapSeg_ne, hv, buildPVal]

theorem look_deploymentId (x : TracesPaginatedArg) :
    jsLookup "deploymentId" (qsParse (serializeTracesParams x)) =
      (x.filters.bind (fun f => f.deploymentId)).map (fun v => PVal.scalar (QVal.str v)) := by
  rw [jsLookup_qsParse_collect]
  have hp : collect "deploymentId" (pagSeg x.pagination) = [] :=
    collect_pagSeg_ne _ (by decide) (by decide)
  have ho : collect "deploymentId" (orderBySeg x.orderBy) = [] :=
    collect_orderBySeg_ne _ (by decide)
  rcases hf : x.filters with _ | f
  · simp [serializeTracesParams, collect_append, hp, ho, hf, filtersSegOpt]
  · rcases hv : f.deploymentId with _ | v <;>
      simp [serializeTracesParams, collect_append, hp, ho, hf, filtersSegOpt, filtersSeg,
        collect_optFlat_ne, collect_optFlat_self, collect_dateRangeSeg_ne, collect_tagsSeg_ne,
        collect_mapSeg_ne, hv, buildPVal]

theorem look_status (x : TracesPaginatedArg) :
    jsLookup "status" (qsParse (serializeTracesParams x)) =
      (x.filters.bind (fun f => f.status)).map (fun v => PVal.scalar (QVal.str v.toStr)) := by
  rw [jsLookup_qsParse_collect]
  have hp : collect "status" (pagSeg x.pagination) = [] :=
    collect_pagSeg_ne _ (by decide) (by decide)
  have ho : collect "status" (orderBySeg x.orderBy) = [] :=
    collect_orderBySeg_ne _ (by decide)
  rcases hf : x.filters with _ | f
  · simp [serializeTracesParams, collect_append, hp, ho, hf, filtersSegOpt]
  · rcases hv : f.status with _ | v <;>
      simp [serializeTracesParams, collect_append, hp, ho, hf, filtersSegOpt, filtersSeg,
        collect_optFlat_ne, collect_optFlat_self, collect_dateRangeSeg_ne, collect_tagsSeg_ne,
        collect_mapSeg_ne, hv, buildPVal]

theorem look_hasChildError (x : TracesPaginatedArg) :
    jsLookup "hasChildError" (qsParse (serializeTracesParams x)) =
      (x.filters.bind (fun f => f.hasChildError)).map (fun v => PVal.scalar (QVal.bool v)) := by
  rw [jsLookup_qsParse_collect]
  have hp : collect "hasChildError" (pagSeg x.pagination) = [] :=
    collect_pagSeg_ne _ (by decide) (by decide)
  have ho : collect "hasChildError" (orderBySeg x.orderBy) = [] :=
    collect_orderBySeg_ne _ (by decide)
  rcases hf : x.filters with _ | f
  · simp [serializeTracesParams, collect_append, hp, ho, hf, filtersSegOpt]
  · rcases hv : f.hasChildError with _ | v <;>
      simp [serializeTracesParams, collect_append, hp, ho, hf, filtersSegOpt, filtersSeg,
        collect_optFlat_ne, collect_optFlat_self, collect_dateRangeSeg_ne, collect_tagsSeg_ne,
        collect_mapSeg_ne, hv, buildPVal]

theorem look_page (x : TracesPaginatedArg) :
    jsLookup "page" (qsParse (serializeTracesParams x)) =
      (x.pagination.bind (fun p => p.page)).map (fun n => PVal.scalar (QVal.num n)) := by
  rw [jsLookup_qsParse_collect]
  have hfo : collect "page" (filtersSegOpt x.filters) = [] :=
    collect_filtersSegOpt_other (by decide)
  have ho : collect "page" (orderBySeg x.orderBy) = [] :=
    collect_orderBySeg_ne _ (by decide)
  rcases hpg : x.pagination with _ | pg
  · simp [serializeTracesParams, collect_append, hfo, ho, hpg, pagSeg]
  · rcases hv : pg.page with _ | n <;>
      simp [serializeTracesParams, collect_append, hfo, ho, hpg, pagSeg,
        collect_optFlat_ne, collect_optFlat_self, hv, buildPVal]

theorem look_perPage (x : TracesPaginatedArg) :
    jsLookup "perPage" (qsParse (serializeTracesParams x)) =
      (x.pagination.bind (fun p => p.perPage)).map (fun n => PVal.scalar (QVal.num n)) := by
  rw [jsLookup_qsParse_collect]
  have hfo : collect "perPage" (filtersSegOpt x.filters) = [] :=
    collect_filtersSegOpt_other (by decide)
  have ho : collect "perPage" (orderBySeg x.orderBy) = [] :=
    collect_orderBySeg_ne _ (by decide)
  rcases hpg : x.pagination with _ | pg
  · simp [serializeTracesParams, collect_append, hfo, ho, hpg, pagSeg]
  · rcases hv : pg.perPage with _ | n <;>
      simp [serializeTracesParams, collect_append, hfo, ho, hpg, pagSeg,
        collect_optFlat_ne, collect_optFlat_self, hv, buildPVal]

theorem chk_spanType (x : TracesPaginatedArg) :
    chkEnum "filters.spanType" SpanType.ofStr (jsLookup "spanType" (qsParse (serializeTracesParams x))) =
      ([], x.filters.bind (fun f => f.spanType)) := by
  rw [look_spanType]
  rcases x.filters.bind (fun f => f.spanType) with _ | v
  · rfl
  · simp [chkEnum, qvalToStr, spanType_ofStr_toStr]

theorem chk_entityType (x : TracesPaginatedArg) :
    chkEnum "filters.entityType" SpanEntityType.ofStr (jsLookup "entityType" (qsParse (serializeTracesParams x))) =
      ([], x.filters.bind (fun f => f.entityType)) := by
  rw [look_entityType]
  rcases x.filters.bind (fun f => f.entityType) with _ | v
  · rfl
  · simp [chkEnum, qvalToStr, spanEntityType_ofStr_toStr]

theorem chk_entityId (x : TracesPaginatedArg) :
    chkString "filters.entityId" (jsLookup "entityId" (qsParse (serializeTracesParams x))) =
      ([], x.filters.bind (fun f => f.entityId)) := by
  rw [look_entityId]
  rcases x.filters.bind (fun f => f.entityId) with _ | v
  · rfl
  · simp [chkString, qvalToStr]

theorem chk_entityName (x : TracesPaginatedArg) :
    chkString "filters.entityName" (jsLookup "entityName" (qsParse (serializeTracesParams x))) =
      ([], x.filters.bind (fun f => f.entityName)) := by
  rw [look_entityName]
  rcases x.filters.bind (fun f => f.entityName) with _ | v
  · rfl
  · simp [chkString, qvalToStr]

theorem chk_userId (x : TracesPaginatedArg) :
    chkString "filters.userId" (jsLookup "userId" (qsParse (serializeTracesParams x))) =
      ([], x.filters.bind (fun f => f.userId)) := by
  rw [look_userId]
  rcases x.filters.bind (fun f => f.userId) with _ | v
  · rfl
  · simp [chkString, qvalToStr]

theorem chk_organizationId (x : TracesPaginatedArg) :
    chkString "filters.organizationId" (jsLookup "organizationId" (qsParse (serializeTracesParams x))) =
      ([], x.filters.bind (fun f => f.organizationId)) := by
  rw [look_organizationId]
  rcases x.filters.bind (fun f => f.organizationId) with _ | v
  · rfl
  · simp [chkString, qvalToStr]

theorem chk_resourceId (x : TracesPaginatedArg) :
    chkString "filters.resourceId" (jsLookup "resourceId" (qsParse (serializeTracesParams x))) =
      ([], x.filters.bind (fun f => f.resourceId)) := by
  rw [look_resourceId]
  rcases x.filters.bind (fun f => f.resourceId) with _ | v
  · rfl
  · simp [chkString, qvalToStr]

theorem chk_runId (x : TracesPaginatedArg) :
    chkString "filters.runId" (jsLookup "runId" (qsParse (serializeTracesParams x))) =
      ([], x.filters.bind (fun f => f.runId)) := by
  rw [look_runId]
  rcases x.filters.bind (fun f => f.runId) with _ | v
  · rfl
  · simp [chkString, qvalToStr]

theorem chk_sessionId (x : TracesPaginatedArg) :
    chkString "filters.sessionId" (jsLookup "sessionId" (qsParse (serializeTracesParams x))) =
      ([], x.filters.bind (fun f => f.sessionId)) := by
  rw [look_sessionId]
  rcases x.filters.bind (fun f => f.sessionId) with _ | v
  · rfl
  · simp [chkString, qvalToStr]

theorem chk_threadId (x : TracesPaginatedArg) :
    chkString "filters.threadId" (jsLookup "threadId" (qsParse (serializeTracesParams x))) =
      ([], x.filters.bind (fun f => f.threadId)) := by
  rw [look_threadId]
  rcases x.filters.bind (fun f => f.threadId) with _ | v
  · rfl
  · simp [chkString, qvalToStr]

theorem chk_requestId (x : TracesPaginatedArg) :
    chkString "filters.requestId" (jsLookup "requestId" (qsParse (serializeTracesParams x))) =
      ([], x.filters.bind (fun f => f.requestId)) := by
  rw [look_requestId]
  rcases x.filters.bind (fun f => f.requestId) with _ | v
  · rfl
  · simp [chkString, qvalToStr]

theorem chk_environment (x : TracesPaginatedArg) :
    chkString "filters.environment" (jsLookup "environment" (qsParse (serializeTracesParams x))) =
      ([], x.filters.bind (fun f => f.environment)) := by
  rw [look_environment]
  rcases x.filters.bind (fun f => f.environment) with _ | v
  · rfl
  · simp [chkString, qvalToStr]

theorem chk_source (x : TracesPaginatedArg) :
    chkString "filters.source" (jsLookup "source" (qsParse (serializeTracesParams x))) =
      ([], x.filters.bind (fun f => f.source)) := by
  rw [look_source]
  rcases x.filters.bind (fun f => f.source) with _ | v
  · rfl
  · simp [chkString, qvalToStr]

theorem chk_serviceName (x : TracesPaginatedArg) :
    chkString "filters.serviceName" (jsLookup "serviceName" (qsParse (serializeTracesParams x))) =
      ([], x.filters.bind (fun f => f.serviceName)) := by
  rw [look_serviceName]
  rcases x.filters.bind (fun f => f.serviceName) with _ | v
  · rfl
  · simp [chkString, qvalToStr]

theorem chk_deploymentId (x : TracesPaginatedArg) :
    chkString "filters.deploymentId" (jsLookup "deploymentId" (qsParse (serializeTracesParams x))) =
      ([], x.filters.bind (fun f => f.deploymentId)) := by
  rw [look_deploymentId]
  rcases x.filters.bind (fun f => f.deploymentId) with _ | v
  · rfl
  · simp [chkString, qvalToStr]

theorem chk_status (x : TracesPaginatedArg) :
    chkEnum "filters.status" SpanStatus.ofStr (jsLookup "status" (qsParse (serializeTracesParams x))) =
      ([], x.filters.bind (fun f => f.status)) := by
  rw [look_status]
  rcases x.filters.bind (fun f => f.status) with _ | v
  · rfl
  · simp [chkEnum, qvalToStr, spanStatus_ofStr_toStr]

theorem chk_hasChildError (x : TracesPaginatedArg) :
    chkBool "filters.hasChildError" (jsLookup "hasChildError" (qsParse (serializeTracesParams x))) =
      ([], x.filters.bind (fun f => f.hasChildError)) := by
  rw [look_hasChildError]
  rcases x.filters.bind (fun f => f.hasChildError) with _ | v
  · rfl
  · cases v <;> simp [chkBool, qvalToStr]

theorem chk_page (x : TracesPaginatedArg) :
    chkNat "pagination.page" 0 (jsLookup "page" (qsParse (serializeTracesParams x))) =
      ([], x.pagination.bind (fun p => p.page)) := by
  rw [look_page]
  rcases x.pagination.bind (fun p => p.page) with _ | n
  · rfl
  · simp [chkNat]

theorem chk_perPage (x : TracesPaginatedArg) (hwf : wfArg x) :
    chkNat "pagination.perPage" 1 (jsLookup "perPage" (qsParse (serializeTracesParams x))) =
      ([], x.pagination.bind (fun p => p.perPage)) := by
  rw [look_perPage]
  rcases hpg : x.pagination with _ | pg
  · rfl
  · rcases hv : pg.perPage with _ | n
    · simp [hv, chkNat]
    · have h1 : 1 ≤ n := (hwf.1 pg hpg).2 n hv
      simp [hv, chkNat, h1]

theorem buildPVal_inr (l : List (String × QVal)) (h : l ≠ []) :
    buildPVal (l.map Sum.inr) =
      (if isIndexLike ((dedupAssoc l).map (fun e => e.1))
       then PVal.arr ((dedupAssoc l).map (fun e => e.2))
       else PVal.obj (dedupAssoc l)) := by
  rcases l with _ | ⟨kv, rest⟩
  · exact absurd rfl h
  · have hred : buildPVal ((kv :: rest).map
        (Sum.inr : String × QVal → Sum QVal (String × QVal))) =
        (if ((kv :: rest).map (Sum.inr : String × QVal → Sum QVal (String × QVal))).all
            (fun p => p.isLeft) then
          PVal.arr (((kv :: rest).map
            (Sum.inr : String × QVal → Sum QVal (String × QVal))).filterMap
            (fun p => p.getLeft?))
        else
          let o := dedupAssoc (((kv :: rest).map
            (Sum.inr : String × QVal → Sum QVal (String × QVal))).filterMap
            (fun p => p.getRight?))
          if isIndexLike (o.map (fun e => e.1)) then PVal.arr (o.map (fun e => e.2))
          else PVal.obj o) := rfl
    rw [hred]
    have hall : ((kv :: rest).map
        (Sum.inr : String × QVal → Sum QVal (String × QVal))).all
        (fun p => p.isLeft) = false := by
      simp
    rw [hall]
    have hr : ((kv :: rest).map
        (Sum.inr : String × QVal → Sum QVal (String × QVal))).filterMap
        (fun p => p.getRight?) = kv :: rest := by
      rw [List.filterMap_map]
      have hcomp : ((fun p : Sum QVal (String × QVal) => p.getRight?) ∘
          (Sum.inr : String × QVal → Sum QVal (String × QVal))) = some := by
        funext a
        rfl
      rw [hcomp, List.filterMap_some]
    simp only [Bool.false_eq_true, if_false, hr]

theorem natParseCanon_repr {i : Nat} (h : i < 22) : natParseCanon (Nat.repr i) = some i := by
  have hall : ∀ j < 22, natParseCanon (Nat.repr j) = some j := by decide
  exact hall i h

theorem repr_range_nodup {n : Nat} (h : n ≤ 22) : ((List.range n).map Nat.repr).Nodup := by
  refine List.Nodup.map_on ?_ (List.nodup_range n)
  intro a ha b hb he
  have ha' : a < 22 := lt_of_lt_of_le (List.mem_range.mp ha) h
  have hb' : b < 22 := lt_of_lt_of_le (List.mem_range.mp hb) h
  have hcanon : some a = some b := by
    rw [← natParseCanon_repr ha', ← natParseCanon_repr hb', he]
  exact Option.some.inj hcanon

theorem isIndexLike_repr_range {n : Nat} (h : n ≤ 21) :
    isIndexLike ((List.range n).map Nat.repr) = true := by
  rw [isIndexLike, Bool.and_eq_true]
  constructor
  · refine decide_eq_true ?_
    rw [List.map_map, List.length_map, List.length_range]
    refine List.map_congr_left ?_
    intro i hi
    have hi' : i < 22 := lt_of_lt_of_le (List.mem_range.mp hi) (le_trans h (by omega))
    simp [Function.comp, natParseCanon_repr hi']
  · refine decide_eq_true ?_
    rw [List.length_map, List.length_range]
    exact h

theorem isIndexLike_eq_false {ks : List String} {k : String} (hm : k ∈ ks)
    (hk : natParseCanon k = none) : isIndexLike ks = false := by
  rw [isIndexLike]
  have hne : ¬(ks.map natParseCanon = (List.range ks.length).map some) := by
    intro he
    have h1 : (none : Option Nat) ∈ ks.map natParseCanon := by
      have := List.mem_map_of_mem natParseCanon hm
      rwa [hk] at this
    rw [he] at h1
    rcases List.mem_map.mp h1 with ⟨j, _, hj⟩
    cases hj
  simp [hne]

theorem dedupAssoc_of_nodup {l : List (String × QVal)}
    (h : (l.map (fun e => e.1)).Nodup) : dedupAssoc l = l := by
  have haux : ∀ (l2 : List (String × QVal)) (acc : List (String × QVal)),
      ((acc ++ l2).map (fun e => e.1)).Nodup →
      l2.foldl (fun a kv => if a.any (fun e => e.1 = kv.1) then a else a ++ [kv]) acc =
        acc ++ l2 := by
    intro l2
    induction l2 with
    | nil =>
      intro acc _
      simp
    | cons kv rest ih =>
      intro acc hnd
      have hfalse : acc.any (fun e => e.1 = kv.1) = false := by
        rw [Bool.eq_false_iff]
        intro hany
        rcases List.any_eq_true.mp hany with ⟨e, he, hek⟩
        have hek' : e.1 = kv.1 := of_decide_eq_true hek
        rw [List.map_append, List.nodup_append] at hnd
        refine hnd.2.2 (List.mem_map_of_mem _ he) ?_
        rw [hek']
        exact List.mem_map_of_mem _ (List.mem_cons_self _ _)
      rw [List.foldl_cons]
      have hstep : (if acc.any (fun e => e.1 = kv.1) then acc else acc ++ [kv]) = acc ++ [kv] := by
        rw [hfalse]
        simp
      rw [hstep]
      have hnd' : (((acc ++ [kv]) ++ rest).map (fun e => e.1)).Nodup := by
        simpa using hnd
      calc rest.foldl (fun a kv => if a.any (fun e => e.1 = kv.1) then a else a ++ [kv])
            (acc ++ [kv]) = (acc ++ [kv]) ++ rest := ih (acc ++ [kv]) hnd'
        _ = acc ++ kv :: rest := by simp
  have := haux l [] (by simpa using h)
  simpa [dedupAssoc] using this


theorem map_qval_round (m : KV) :
    (m.map (fun kv => (kv.1, QVal.str kv.2))).map (fun kv => (kv.1, qvalToStr kv.2)) = m := by
  induction m with
  | nil => rfl
  | cons kv rest ih =>
    simp only [List.map_cons]
    rw [ih]
    rfl

theorem chk_orderBy (x : TracesPaginatedArg) (hwf : wfArg x) :
    chkOrderBy (jsLookup "orderBy" (qsParse (serializeTracesParams x))) = ([], x.orderBy) := by
  rw [jsLookup_qsParse_collect]
  have hp : collect "orderBy" (pagSeg x.pagination) = [] :=
    collect_pagSeg_ne _ (by decide) (by decide)
  have hfo : collect "orderBy" (filtersSegOpt x.filters) = [] :=
    collect_filtersSegOpt_other (by decide)
  rcases ho : x.orderBy with _ | ob
  · simp [serializeTracesParams, collect_append, hp, hfo, ho, collect_orderBySeg_self,
      chkOrderBy]
  · have hnd := hwf.2.2 ob ho
    rcases ob with ⟨fo, dir⟩
    rcases fo with _ | f1
    · rcases dir with _ | d1
      · simp at hnd
      · simp +decide [serializeTracesParams, collect_append, hp, hfo, ho,
          collect_orderBySeg_self, buildPVal, dedupAssoc, isIndexLike, natParseCanon,
          strToNat, natFromDigits, digitVal, chkOrderBy, chkEnumLeaf, jsLookup, qvalToStr,
          sortDir_ofStr_toStr, orderField_ofStr_toStr]
    · rcases dir with _ | d1
      · simp +decide [serializeTracesParams, collect_append, hp, hfo, ho,
          collect_orderBySeg_self, buildPVal, dedupAssoc, isIndexLike, natParseCanon,
          strToNat, natFromDigits, digitVal, chkOrderBy, chkEnumLeaf, jsLookup, qvalToStr,
          sortDir_ofStr_toStr, orderField_ofStr_toStr]
      · simp +decide [serializeTracesParams, collect_append, hp, hfo, ho,
          collect_orderBySeg_self, buildPVal, dedupAssoc, isIndexLike, natParseCanon,
          strToNat, natFromDigits, digitVal, chkOrderBy, chkEnumLeaf, jsLookup, qvalToStr,
          sortDir_ofStr_toStr, orderField_ofStr_toStr]

theorem chk_tags (x : TracesPaginatedArg) (hwf : wfArg x) :
    chkTags "filters.tags" (jsLookup "tags" (qsParse (serializeTracesParams x))) =
      ([], x.filters.bind (fun f => f.tags)) ∧
    (jsLookup "tags" (qsParse (serializeTracesParams x))).isSome =
      (x.filters.bind (fun f => f.tags)).isSome := by
  rw [jsLookup_qsParse_collect]
  have hp : collect "tags" (pagSeg x.pagination) = [] :=
    collect_pagSeg_ne _ (by decide) (by decide)
  have ho : collect "tags" (orderBySeg x.orderBy) = [] :=
    collect_orderBySeg_ne _ (by decide)
  rcases hf : x.filters with _ | f
  · simp [serializeTracesParams, collect_append, hp, ho, hf, filtersSegOpt, chkTags]
  · rcases hts : f.tags with _ | ts
    · simp [serializeTracesParams, collect_append, hp, ho, hf, filtersSegOpt, filtersSeg,
        collect_optFlat_ne, collect_dateRangeSeg_ne, collect_tagsSeg_self, collect_mapSeg_ne,
        hts, chkTags]
    · obtain ⟨hne, hlen⟩ := (hwf.2.1 f hf).2.2.2.1 ts hts
      have hlen' : 0 < ts.length := List.length_pos.mpr hne
      have hcol : collect "tags" (serializeTracesParams x) =
          (ts.enum.map (fun it => (Nat.repr it.1, QVal.str it.2))).map Sum.inr := by
        simp [serializeTracesParams, collect_append, hp, ho, hf, filtersSegOpt, filtersSeg,
          collect_optFlat_ne, collect_dateRangeSeg_ne, collect_tagsSeg_self, collect_mapSeg_ne,
          hts, hlen', List.map_map]
      have hkeys : ((ts.enum.map (fun it => (Nat.repr it.1, QVal.str it.2))).map
          (fun e => e.1)) = (List.range ts.length).map Nat.repr := by
        rw [List.map_map]
        have hc : ((fun e : String × QVal => e.1) ∘
            fun it : Nat × String => (Nat.repr it.1, QVal.str it.2)) =
            (Nat.repr ∘ Prod.fst) := by
          funext it
          rfl
        rw [hc, ← List.map_map, List.enum_map_fst]
      have hsub : ts.enum.map (fun it => (Nat.repr it.1, QVal.str it.2)) ≠ [] := by
        intro hnil
        rw [List.map_eq_nil_iff] at hnil
        have := congrArg List.length hnil
        simp [List.enum_length] at this
        exact hne this
      have hnodup : (((ts.enum.map (fun it => (Nat.repr it.1, QVal.str it.2))).map
          (fun e => e.1))).Nodup := by
        rw [hkeys]
        exact repr_range_nodup (le_trans hlen (by omega))
      have hdedup := dedupAssoc_of_nodup hnodup
      have hvals : ((ts.enum.map (fun it => (Nat.repr it.1, QVal.str it.2))).map
          (fun e => e.2)) = ts.map QVal.str := by
        rw [List.map_map]
        have hc : ((fun e : String × QVal => e.2) ∘
            fun it : Nat × String => (Nat.repr it.1, QVal.str it.2)) =
            (QVal.str ∘ Prod.snd) := by
          funext it
          rfl
        rw [hc, ← List.map_map, List.enum_map_snd]
      rw [hcol, buildPVal_inr _ hsub, hdedup, hkeys, hvals,
        if_pos (isIndexLike_repr_range hlen)]
      constructor
      · have : (ts.map QVal.str).map qvalToStr = ts := by
          rw [List.map_map]
          have hc : (qvalToStr ∘ QVal.str) = id := by
            funext t
            rfl
          rw [hc, List.map_id]
        simp [chkTags, hf, hts, this, hne]
      · simp [hf, hts, hne]

theorem chk_startedAt (x : TracesPaginatedArg) (hwf : wfArg x) :
    chkDateRange "filters.startedAt" (jsLookup "startedAt" (qsParse (serializeTracesParams x))) =
      ([], x.filters.bind (fun f => f.startedAt)) ∧
    (jsLookup "startedAt" (qsParse (serializeTracesParams x))).isSome =
      (x.filters.bind (fun f => f.startedAt)).isSome := by
  rw [jsLookup_qsParse_collect]
  have hp : collect "startedAt" (pagSeg x.pagination) = [] :=
    collect_pagSeg_ne _ (by decide) (by decide)
  have ho : collect "startedAt" (orderBySeg x.orderBy) = [] :=
    collect_orderBySeg_ne _ (by decide)
  rcases hf : x.filters with _ | f
  · simp [serializeTracesParams, collect_append, hp, ho, hf, filtersSegOpt, chkDateRange]
  · rcases hdr : f.startedAt with _ | dr
    · simp [serializeTracesParams, collect_append, hp, ho, hf, filtersSegOpt, filtersSeg,
        collect_optFlat_ne, collect_dateRangeSeg_ne, collect_dateRangeSeg_self,
        collect_tagsSeg_ne, collect_mapSeg_ne, hdr, chkDateRange]
    · have hwfdr : wfDR dr := (hwf.2.1 f hf).2.1 dr hdr
      rcases dr with ⟨ds, de⟩
      rcases ds with _ | d1 <;> rcases de with _ | d2
      · simp [wfDR] at hwfdr
      all_goals
        simp +decide [serializeTracesParams, collect_append, hp, ho, hf, filtersSegOpt,
          filtersSeg, collect_optFlat_ne, collect_dateRangeSeg_ne, collect_dateRangeSeg_self,
          collect_tagsSeg_ne, collect_mapSeg_ne, hdr, chkDateRange, buildPVal, dedupAssoc,
          isIndexLike, natParseCanon, strToNat, natFromDigits, digitVal, jsLookup, dateCoerce]

theorem chk_endedAt (x : TracesPaginatedArg) (hwf : wfArg x) :
    chkDateRange "filters.endedAt" (jsLookup "endedAt" (qsParse (serializeTracesParams x))) =
      ([], x.filters.bind (fun f => f.endedAt)) ∧
    (jsLookup "endedAt" (qsParse (serializeTracesParams x))).isSome =
      (x.filters.bind (fun f => f.endedAt)).isSome := by
  rw [jsLookup_qsParse_collect]
  have hp : collect "endedAt" (pagSeg x.pagination) = [] :=
    collect_pagSeg_ne _ (by decide) (by decide)
  have ho : collect "endedAt" (orderBySeg x.orderBy) = [] :=
    collect_orderBySeg_ne _ (by decide)
  rcases hf : x.filters with _ | f
  · simp [serializeTracesParams, collect_append, hp, ho, hf, filtersSegOpt, chkDateRange]
  · rcases hdr : f.endedAt with _ | dr
    · simp [serializeTracesParams, collect_append, hp, ho, hf, filtersSegOpt, filtersSeg,
        collect_optFlat_ne, collect_dateRangeSeg_ne, collect_dateRangeSeg_self,
        collect_tagsSeg_ne, collect_mapSeg_ne, hdr, chkDateRange]
    · have hwfdr : wfDR dr := (hwf.2.1 f hf).2.2.1 dr hdr
      rcases dr with ⟨ds, de⟩
      rcases ds with _ | d1 <;> rcases de with _ | d2
      · simp [wfDR] at hwfdr
      all_goals
        simp +decide [serializeTracesParams, collect_append, hp, ho, hf, filtersSegOpt,
          filtersSeg, collect_optFlat_ne, collect_dateRangeSeg_ne, collect_dateRangeSeg_self,
          collect_tagsSeg_ne, collect_mapSeg_ne, hdr, chkDateRange, buildPVal, dedupAssoc,
          isIndexLike, natParseCanon, strToNat, natFromDigits, digitVal, jsLookup, dateCoerce]

theorem chk_metadata (x : TracesPaginatedArg) (hwf : wfArg x) :
    chkRecord "filters.metadata" (jsLookup "metadata" (qsParse (serializeTracesParams x))) =
      ([], x.filters.bind (fun f => f.metadata)) ∧
    (jsLookup "metadata" (qsParse (serializeTracesParams x))).isSome =
      (x.filters.bind (fun f => f.metadata)).isSome := by
  rw [jsLookup_qsParse_collect]
  have hp : collect "metadata" (pagSeg x.pagination) = [] :=
    collect_pagSeg_ne _ (by decide) (by decide)
  have ho : collect "metadata" (orderBySeg x.orderBy) = [] :=
    collect_orderBySeg_ne _ (by decide)
  rcases hf : x.filters with _ | f
  · simp [serializeTracesParams, collect_append, hp, ho, hf, filtersSegOpt, chkRecord]
  · rcases hm : f.metadata with _ | m
    · simp [serializeTracesParams, collect_append, hp, ho, hf, filtersSegOpt, filtersSeg,
        collect_optFlat_ne, collect_dateRangeSeg_ne, collect_tagsSeg_ne, collect_mapSeg_ne,
        collect_mapSeg_self, hm, chkRecord]
    · obtain ⟨hmne, hmnodup, hmgood⟩ := (hwf.2.1 f hf).2.2.2.2.1 m hm
      have hml : 0 < m.length := List.length_pos.mpr hmne
      have hcol : collect "metadata" (serializeTracesParams x) =
          (m.map (fun kv => (kv.1, QVal.str kv.2))).map Sum.inr := by
        simp [serializeTracesParams, collect_append, hp, ho, hf, filtersSegOpt, filtersSeg,
          collect_optFlat_ne, collect_dateRangeSeg_ne, collect_tagsSeg_ne, collect_mapSeg_ne,
          collect_mapSeg_self, hm, hml, List.map_map]
      have hkeys : (m.map (fun kv => (kv.1, QVal.str kv.2))).map (fun e => e.1) =
          m.map (fun kv => kv.1) := by
        rw [List.map_map]
        rfl
      have hsub : m.map (fun kv => (kv.1, QVal.str kv.2)) ≠ [] := by
        intro hnil
        rw [List.map_eq_nil_iff] at hnil
        exact hmne hnil
      have hnodup : ((m.map (fun kv => (kv.1, QVal.str kv.2))).map (fun e => e.1)).Nodup := by
        rw [hkeys]
        exact hmnodup
      have hdedup := dedupAssoc_of_nodup hnodup
      obtain ⟨kv0, hkv0⟩ := List.exists_mem_of_ne_nil m hmne
      have hcanon : natParseCanon kv0.1 = none := by
        have hg := hmgood kv0 hkv0
        rw [goodKey, Bool.and_eq_true, Bool.and_eq_true] at hg
        exact Option.isNone_iff_eq_none.mp hg.1.2
      have hmem : kv0.1 ∈ (m.map (fun kv => (kv.1, QVal.str kv.2))).map (fun e => e.1) := by
        rw [hkeys]
        exact List.mem_map_of_mem _ hkv0
      have hidx := isIndexLike_eq_false hmem hcanon
      rw [hcol, buildPVal_inr _ hsub, hdedup, hidx]
      constructor
      · simp [chkRecord, hf, hm, hmne]
        rw [← List.map_map]
        exact map_qval_round m
      · simp [hf, hm, hmne]

theorem chk_scope (x : TracesPaginatedArg) (hwf : wfArg x) :
    chkRecord "filters.scope" (jsLookup "scope" (qsParse (serializeTracesParams x))) =
      ([], x.filters.bind (fun f => f.scope)) ∧
    (jsLookup "scope" (qsParse (serializeTracesParams x))).isSome =
      (x.filters.bind (fun f => f.scope)).isSome := by
  rw [jsLookup_qsParse_collect]
  have hp : collect "scope" (pagSeg x.pagination) = [] :=
    collect_pagSeg_ne _ (by decide) (by decide)
  have ho : collect "scope" (orderBySeg x.orderBy) = [] :=
    collect_orderBySeg_ne _ (by decide)
  rcases hf : x.filters with _ | f
  · simp [serializeTracesParams, collect_append, hp, ho, hf, filtersSegOpt, chkRecord]
  · rcases hm : f.scope with _ | m
    · simp [serializeTracesParams, collect_append, hp, ho, hf, filtersSegOpt, filtersSeg,
        collect_optFlat_ne, collect_dateRangeSeg_ne, collect_tagsSeg_ne, collect_mapSeg_ne,
        collect_mapSeg_self, hm, chkRecord]
    · obtain ⟨hmne, hmnodup, hmgood⟩ := (hwf.2.1 f hf).2.2.2.2.2.1 m hm
      have hml : 0 < m.length := List.length_pos.mpr hmne
      have hcol : collect "scope" (serializeTracesParams x) =
          (m.map (fun kv => (kv.1, QVal.str kv.2))).map Sum.inr := by
        simp [serializeTracesParams, collect_append, hp, ho, hf, filtersSegOpt, filtersSeg,
          collect_optFlat_ne, collect_dateRangeSeg_ne, collect_tagsSeg_ne, collect_mapSeg_ne,
          collect_mapSeg_self, hm, hml, List.map_map]
      have hkeys : (m.map (fun kv => (kv.1, QVal.str kv.2))).map (fun e => e.1) =
          m.map (fun kv => kv.1) := by
        rw [List.map_map]
        rfl
      have hsub : m.map (fun kv => (kv.1, QVal.str kv.2)) ≠ [] := by
        intro hnil
        rw [List.map_eq_nil_iff] at hnil
        exact hmne hnil
      have hnodup : ((m.map (fun kv => (kv.1, QVal.str kv.2))).map (fun e => e.1)).Nodup := by
        rw [hkeys]
        exact hmnodup
      have hdedup := dedupAssoc_of_nodup hnodup
      obtain ⟨kv0, hkv0⟩ := List.exists_mem_of_ne_nil m hmne
      have hcanon : natParseCanon kv0.1 = none := by
        have hg := hmgood kv0 hkv0
        rw [goodKey, Bool.and_eq_true, Bool.and_eq_true] at hg
        exact Option.isNone_iff_eq_none.mp hg.1.2
      have hmem : kv0.1 ∈ (m.map (fun kv => (kv.1, QVal.str kv.2))).map (fun e => e.1) := by
        rw [hkeys]
        exact List.mem_map_of_mem _ hkv0
      have hidx := isIndexLike_eq_false hmem hcanon
      rw [hcol, buildPVal_inr _ hsub, hdedup, hidx]
      constructor
      · simp [chkRecord, hf, hm, hmne]
        rw [← List.map_map]
        exact map_qval_round m
      · simp [hf, hm, hmne]

theorem chk_versionInfo (x : TracesPaginatedArg) (hwf : wfArg x) :
    chkRecord "filters.versionInfo" (jsLookup "versionInfo" (qsParse (serializeTracesParams x))) =
      ([], x.filters.bind (fun f => f.versionInfo)) ∧
    (jsLookup "versionInfo" (qsParse (serializeTracesParams x))).isSome =
      (x.filters.bind (fun f => f.versionInfo)).isSome := by
  rw [jsLookup_qsParse_collect]
  have hp : collect "versionInfo" (pagSeg x.pagination) = [] :=
    collect_pagSeg_ne _ (by decide) (by decide)
  have ho : collect "versionInfo" (orderBySeg x.orderBy) = [] :=
    collect_orderBySeg_ne _ (by decide)
  rcases hf : x.filters with _ | f
  · simp [serializeTracesParams, collect_append, hp, ho, hf, filtersSegOpt, chkRecord]
  · rcases hm : f.versionInfo with _ | m
    · simp [serializeTracesParams, collect_append, hp, ho, hf, filtersSegOpt, filtersSeg,
        collect_optFlat_ne, collect_dateRangeSeg_ne, collect_tagsSeg_ne, collect_mapSeg_ne,
        collect_mapSeg_self, hm, chkRecord]
    · obtain ⟨hmne, hmnodup, hmgood⟩ := (hwf.2.1 f hf).2.2.2.2.2.2 m hm
      have hml : 0 < m.length := List.length_pos.mpr hmne
      have hcol : collect "versionInfo" (serializeTracesParams x) =
          (m.map (fun kv => (kv.1, QVal.str kv.2))).map Sum.inr := by
        simp [serializeTracesParams, collect_append, hp, ho, hf, filtersSegOpt, filtersSeg,
          collect_optFlat_ne, collect_dateRangeSeg_ne, collect_tagsSeg_ne, collect_mapSeg_ne,
          collect_mapSeg_self, hm, hml, List.map_map]
      have hkeys : (m.map (fun kv => (kv.1, QVal.str kv.2))).map (fun e => e.1) =
          m.map (fun kv => kv.1) := by
        rw [List.map_map]
        rfl
      have hsub : m.map (fun kv => (kv.1, QVal.str kv.2)) ≠ [] := by
        intro hnil
        rw [List.map_eq_nil_iff] at hnil
        exact hmne hnil
      have hnodup : ((m.map (fun kv => (kv.1, QVal.str kv.2))).map (fun e => e.1)).Nodup := by
        rw [hkeys]
        exact hmnodup
      have hdedup := dedupAssoc_of_nodup hnodup
      obtain ⟨kv0, hkv0⟩ := List.exists_mem_of_ne_nil m hmne
      have hcanon : natParseCanon kv0.1 = none := by
        have hg := hmgood kv0 hkv0
        rw [goodKey, Bool.and_eq_true, Bool.and_eq_true] at hg
        exact Option.isNone_iff_eq_none.mp hg.1.2
      have hmem : kv0.1 ∈ (m.map (fun kv => (kv.1, QVal.str kv.2))).map (fun e => e.1) := by
        rw [hkeys]
        exact List.mem_map_of_mem _ hkv0
      have hidx := isIndexLike_eq_false hmem hcanon
      rw [hcol, buildPVal_inr _ hsub, hdedup, hidx]
      constructor
      · simp [chkRecord, hf, hm, hmne]
        rw [← List.map_map]
        exact map_qval_round m
      · simp [hf, hm, hmne]

theorem isSome_map_enc {α β : Type} (f : α → β) (o : Option α) :
    (o.map f).isSome = o.isSome := by
  cases o <;> rfl

theorem filtersPresent_eq (x : TracesPaginatedArg) (hwf : wfArg x) :
    filtersPresent (serializeTracesParams x) = (x.filters).isSome := by
  unfold filtersPresent
  rw [look_spanType, look_entityType, look_entityId, look_entityName,
    look_userId, look_organizationId, look_resourceId, look_runId,
    look_sessionId, look_threadId, look_requestId, look_environment,
    look_source, look_serviceName, look_deploymentId, look_status,
    look_hasChildError, (chk_startedAt x hwf).2, (chk_endedAt x hwf).2,
    (chk_tags x hwf).2, (chk_metadata x hwf).2, (chk_scope x hwf).2,
    (chk_versionInfo x hwf).2]
  rcases hf : x.filters with _ | f
  · simp
  · have hhas := (hwf.2.1 f hf).1
    unfold filterHasField at hhas
    rcases hhas with h|h|h|h|h|h|h|h|h|h|h|h|h|h|h|h|h|h|h|h|h|h|h <;>
      simp [isSome_map_enc, h]

end QP

/-- Counterexample to claim C1 as stated: `C1bad` is built solely from defined,
schema-valid fields — its only filter is a non-empty tags list, of 22 entries —
yet the round trip fails. `serializeTracesParams` (qs `arrayFormat: 'indices'`)
emits `tags[0]` … `tags[21]`, and `qs.parse` (default `arrayLimit: 20`) refuses to
treat an index above 20 as an array index, so the parsed `tags` value is an object,
which `z.array(z.string())` rejects: the parse returns a validation error instead
of `C1bad`. Likewise `C1bad2`, whose only filter is the schema-valid metadata
record `{"0": "1"}`: its serialization `metadata[0]=1` is index-like, so `qs.parse`
rebuilds it as an array, which `z.record` rejects. -/
theorem C1_counterexample :
    QP.parseTracesQueryParams (QP.serializeTracesParams C1bad) =
      .error (QP.errAt "filters.tags" "Expected array") ∧
    QP.parseTracesQueryParams (QP.serializeTracesParams C1bad2) =
      .error (QP.errAt "filters.metadata" "Expected object") := ⟨rfl, rfl⟩

/-- Claim C1, amended: for every `TracesPaginatedArg` built solely from defined,
schema-valid fields — pagination with `perPage ≥ 1`, scalar filters, non-degenerate
`startedAt`/`endedAt` date ranges, a non-empty tags list of at most 21 entries (the
qs `arrayLimit` bound), non-empty `metadata`/`scope`/`versionInfo` maps whose keys
are non-index-like and free of qs metacharacters, and a non-degenerate `orderBy` —
`parseTracesQueryParams` applied to `serializeTracesParams` succeeds and returns
the argument unchanged. (Without the two extra bounds the round trip genuinely
fails: see `C1_counterexample`.) -/
theorem C1_roundtrip (x : QP.TracesPaginatedArg) (hwf : QP.wfArg x) :
    QP.parseTracesQueryParams (QP.serializeTracesParams x) = .ok x := by
  have herr : QP.parseErrors (QP.serializeTracesParams x) = [] := by
    unfold QP.parseErrors QP.fieldErrorLists
    rw [(QP.chk_startedAt x hwf).1, (QP.chk_endedAt x hwf).1, QP.chk_spanType x,
      QP.chk_entityType x, QP.chk_entityId x, QP.chk_entityName x, QP.chk_userId x,
      QP.chk_organizationId x, QP.chk_resourceId x, QP.chk_runId x, QP.chk_sessionId x,
      QP.chk_threadId x, QP.chk_requestId x, QP.chk_environment x, QP.chk_source x,
      QP.chk_serviceName x, QP.chk_deploymentId x, (QP.chk_metadata x hwf).1,
      (QP.chk_tags x hwf).1, (QP.chk_scope x hwf).1, (QP.chk_versionInfo x hwf).1,
      QP.chk_status x, QP.chk_hasChildError x, QP.chk_page x, QP.chk_perPage x hwf,
      QP.chk_orderBy x hwf]
    rfl
  have hok : QP.parseTracesQueryParams (QP.serializeTracesParams x) =
      .ok (QP.parseData (QP.serializeTracesParams x)) := by
    unfold QP.parseTracesQueryParams
    rw [herr]
    rfl
  have hord : (QP.parseData (QP.serializeTracesParams x)).orderBy = x.orderBy := by
    show (QP.chkOrderBy (QP.jsLookup "orderBy" (QP.qsParse (QP.serializeTracesParams x)))).2 =
      x.orderBy
    rw [QP.chk_orderBy x hwf]
  have hpag : (QP.parseData (QP.serializeTracesParams x)).pagination = x.pagination := by
    show (if (QP.jsLookup "page" (QP.qsParse (QP.serializeTracesParams x))).isSome ||
        (QP.jsLookup "perPage" (QP.qsParse (QP.serializeTracesParams x))).isSome then
      some { page := (QP.chkNat "pagination.page" 0
                (QP.jsLookup "page" (QP.qsParse (QP.serializeTracesParams x)))).2,
             perPage := (QP.chkNat "pagination.perPage" 1
                (QP.jsLookup "perPage" (QP.qsParse (QP.serializeTracesParams x)))).2 }
      else none) = x.pagination
    rw [QP.chk_page x, QP.chk_perPage x hwf, QP.look_page, QP.look_perPage]
    rcases hpo : x.pagination with _ | pg
    · simp [hpo]
    · obtain ⟨pp, qq⟩ := pg
      have hone := (hwf.1 ⟨pp, qq⟩ hpo).1
      cases pp <;> cases qq <;> simp [hpo] <;> simp at hone
  have hfield : (QP.parseData (QP.serializeTracesParams x)).filters = x.filters := by
    show (if QP.filtersPresent (QP.serializeTracesParams x) then
      some
        { startedAt := (QP.chkDateRange "filters.startedAt"
            (QP.jsLookup "startedAt" (QP.qsParse (QP.serializeTracesParams x)))).2,
          endedAt := (QP.chkDateRange "filters.endedAt"
            (QP.jsLookup "endedAt" (QP.qsParse (QP.serializeTracesParams x)))).2,
          spanType := (QP.chkEnum "filters.spanType" QP.SpanType.ofStr
            (QP.jsLookup "spanType" (QP.qsParse (QP.serializeTracesParams x)))).2,
          entityType := (QP.chkEnum "filters.entityType" QP.SpanEntityType.ofStr
            (QP.jsLookup "entityType" (QP.qsParse (QP.serializeTracesParams x)))).2,
          entityId := (QP.chkString "filters.entityId"
            (QP.jsLookup "entityId" (QP.qsParse (QP.serializeTracesParams x)))).2,
          entityName := (QP.chkString "filters.entityName"
            (QP.jsLookup "entityName" (QP.qsParse (QP.serializeTracesParams x)))).2,
          userId := (QP.chkString "filters.userId"
            (QP.jsLookup "userId" (QP.qsParse (QP.serializeTracesParams x)))).2,
          organizationId := (QP.chkString "filters.organizationId"
            (QP.jsLookup "organizationId" (QP.qsParse (QP.serializeTracesParams x)))).2,
          resourceId := (QP.chkString "filters.resourceId"
            (QP.jsLookup "resourceId" (QP.qsParse (QP.serializeTracesParams x)))).2,
          runId := (QP.chkString "filters.runId"
            (QP.jsLookup "runId" (QP.qsParse (QP.serializeTracesParams x)))).2,
          sessionId := (QP.chkString "filters.sessionId"
            (QP.jsLookup "sessionId" (QP.qsParse (QP.serializeTracesParams x)))).2,
          threadId := (QP.chkString "filters.threadId"
            (QP.jsLookup "threadId" (QP.qsParse (QP.serializeTracesParams x)))).2,
          requestId := (QP.chkString "filters.requestId"
            (QP.jsLookup "requestId" (QP.qsParse (QP.serializeTracesParams x)))).2,
          environment := (QP.chkString "filters.environment"
            (QP.jsLookup "environment" (QP.qsParse (QP.serializeTracesParams x)))).2,
          source := (QP.chkString "filters.source"
            (QP.jsLookup "source" (QP.qsParse (QP.serializeTracesParams x)))).2,
          serviceName := (QP.chkString "filters.serviceName"
            (QP.jsLookup "serviceName" (QP.qsParse (QP.serializeTracesParams x)))).2,
          deploymentId := (QP.chkString "filters.deploymentId"
            (QP.jsLookup "deploymentId" (QP.qsParse (QP.serializeTracesParams x)))).2,
          metadata := (QP.chkRecord "filters.metadata"
            (QP.jsLookup "metadata" (QP.qsParse (QP.serializeTracesParams x)))).2,
          tags := (QP.chkTags "filters.tags"
            (QP.jsLookup "tags" (QP.qsParse (QP.serializeTracesParams x)))).2,
          scope := (QP.chkRecord "filters.scope"
            (QP.jsLookup "scope" (QP.qsParse (QP.serializeTracesParams x)))).2,
          versionInfo := (QP.chkRecord "filters.versionInfo"
            (QP.jsLookup "versionInfo" (QP.qsParse (QP.serializeTracesParams x)))).2,
          status := (QP.chkEnum "filters.status" QP.SpanStatus.ofStr
            (QP.jsLookup "status" (QP.qsParse (QP.serializeTracesParams x)))).2,
          hasChildError := (QP.chkBool "filters.hasChildError"
            (QP.jsLookup "hasChildError" (QP.qsParse (QP.serializeTracesParams x)))).2 }
      else none) = x.filters
    rw [QP.chk_spanType x, QP.chk_entityType x, QP.chk_entityId x, QP.chk_entityName x,
      QP.chk_userId x, QP.chk_organizationId x, QP.chk_resourceId x, QP.chk_runId x,
      QP.chk_sessionId x, QP.chk_threadId x, QP.chk_requestId x, QP.chk_environment x,
      QP.chk_source x, QP.chk_serviceName x, QP.chk_deploymentId x, QP.chk_status x,
      QP.chk_hasChildError x, (QP.chk_startedAt x hwf).1, (QP.chk_endedAt x hwf).1,
      (QP.chk_tags x hwf).1, (QP.chk_metadata x hwf).1, (QP.chk_scope x hwf).1,
      (QP.chk_versionInfo x hwf).1]
    rw [QP.filtersPresent_eq x hwf]
    rcases hf : x.filters with _ | f
    · simp
    · simp
  have hdata : QP.parseData (QP.serializeTracesParams x) = x := by
    calc QP.parseData (QP.serializeTracesParams x)
        = ⟨(QP.parseData (QP.serializeTracesParams x)).filters,
           (QP.parseData (QP.serializeTracesParams x)).pagination,
           (QP.parseData (QP.serializeTracesParams x)).orderBy⟩ := rfl
      _ = ⟨x.filters, x.pagination, x.orderBy⟩ := by rw [hfield, hpag, hord]
      _ = x := rfl
  rw [hok, hdata]

/-- Witness for C1: the concrete schema-valid argument `C1x` is well-formed and
round-trips through `serializeTracesParams` and `parseTracesQueryParams`. -/
theorem C1_roundtrip_witness :
    QP.wfArg C1x ∧
    QP.parseTracesQueryParams (QP.serializeTracesParams C1x) = .ok C1x := by
  have hwf : QP.wfArg C1x := by
    refine ⟨?_, ?_, ?_⟩
    · intro pg hpg
      cases hpg
      refine ⟨Or.inl rfl, ?_⟩
      intro n hn
      cases hn
      decide
    · intro f hf
      cases hf
      refine ⟨Or.inl rfl, ?_, ?_, ?_, ?_, ?_, ?_⟩
      · intro dr hdr
        cases hdr
        exact Or.inl rfl
      · intro dr hdr
        cases hdr
      · intro ts hts
        cases hts
        exact ⟨by decide, by decide⟩
      · intro m hm
        cases hm
        exact ⟨by decide, by decide, by decide⟩
      · intro m hm
        cases hm
      · intro m hm
        cases hm
    · intro ob hob
      cases hob
      exact Or.inl rfl
  exact ⟨hwf, C1_roundtrip C1x hwf⟩

/-- Counterexample to claim C8 as stated: the claim names `dateRange.start` as a
date-range field, but `dateRange` is not among the keys the restructuring step of
`parseTracesQueryParams` recognizes, so a malformed date under it is silently
dropped: the parse succeeds with an empty result and no validation error, even
though the value is not a valid date. -/
theorem C8_counterexample :
    QP.parseTracesQueryParams [(QP.Path.nested "dateRange" "start", QP.QVal.str "not-a-date")] =
      .ok ⟨none, none, none⟩ ∧
    QP.jsDateParse "not-a-date" = none :=
  ⟨rfl, rfl⟩

/-- Claim C8, amended: for the date-range fields the parser recognizes
(`startedAt[start]`, `startedAt[end]`, `endedAt[start]`, `endedAt[end]`), a string
that is not a valid date makes `parseTracesQueryParams` return a validation error
naming that field, and a `hasChildError` string other than `"true"`/`"false"`
makes it return a validation error naming `filters.hasChildError`; such malformed
values are never silently dropped. (Unrecognized keys such as `dateRange`, and the
legacy dot-notation schema revision, drop them silently instead.) -/
theorem C8_malformed_rejected :
    (∀ (q : QP.Query) (o : List (String × QP.QVal)) (s : String),
      QP.jsLookup "startedAt" (QP.qsParse q) = some (.obj o) →
      QP.jsLookup "start" o = some (.str s) → QP.jsDateParse s = none →
      ∃ E, QP.parseTracesQueryParams q = .error E ∧
        (⟨"filters.startedAt.start", "Invalid date"⟩ : QP.VError) ∈ E) ∧
    (∀ (q : QP.Query) (o : List (String × QP.QVal)) (s : String),
      QP.jsLookup "startedAt" (QP.qsParse q) = some (.obj o) →
      QP.jsLookup "end" o = some (.str s) → QP.jsDateParse s = none →
      ∃ E, QP.parseTracesQueryParams q = .error E ∧
        (⟨"filters.startedAt.end", "Invalid date"⟩ : QP.VError) ∈ E) ∧
    (∀ (q : QP.Query) (o : List (String × QP.QVal)) (s : String),
      QP.jsLookup "endedAt" (QP.qsParse q) = some (.obj o) →
      QP.jsLookup "start" o = some (.str s) → QP.jsDateParse s = none →
      ∃ E, QP.parseTracesQueryParams q = .error E ∧
        (⟨"filters.endedAt.start", "Invalid date"⟩ : QP.VError) ∈ E) ∧
    (∀ (q : QP.Query) (o : List (String × QP.QVal)) (s : String),
      QP.jsLookup "endedAt" (QP.qsParse q) = some (.obj o) →
      QP.jsLookup "end" o = some (.str s) → QP.jsDateParse s = none →
      ∃ E, QP.parseTracesQueryParams q = .error E ∧
        (⟨"filters.endedAt.end", "Invalid date"⟩ : QP.VError) ∈ E) ∧
    (∀ (q : QP.Query) (s : String),
      QP.jsLookup "hasChildError" (QP.qsParse q) = some (.scalar (.str s)) →
      s ≠ "true" → s ≠ "false" →
      ∃ E, QP.parseTracesQueryParams q = .error E ∧
        (⟨"filters.hasChildError", "Expected boolean"⟩ : QP.VError) ∈ E) := by
  refine ⟨?_, ?_, ?_, ?_, ?_⟩
  · intro q o s hls hleaf hbad
    have hmem : (⟨"filters.startedAt.start", "Invalid date"⟩ : QP.VError) ∈ QP.parseErrors q := by
      unfold QP.parseErrors QP.fieldErrorLists
      rw [hls]
      refine List.mem_flatten.mpr
        ⟨(QP.chkDateRange "filters.startedAt" (some (QP.PVal.obj o))).1,
          List.mem_cons_self _ _, ?_⟩
      simp only [QP.chkDateRange, hleaf, QP.dateCoerce, hbad]
      exact List.mem_append_left _ (List.mem_cons_self _ _)
    exact ⟨QP.parseErrors q, QP.parse_error_of_mem hmem, hmem⟩
  · intro q o s hls hleaf hbad
    have hmem : (⟨"filters.startedAt.end", "Invalid date"⟩ : QP.VError) ∈ QP.parseErrors q := by
      unfold QP.parseErrors QP.fieldErrorLists
      rw [hls]
      refine List.mem_flatten.mpr
        ⟨(QP.chkDateRange "filters.startedAt" (some (QP.PVal.obj o))).1,
          List.mem_cons_self _ _, ?_⟩
      simp only [QP.chkDateRange, hleaf, QP.dateCoerce, hbad]
      exact List.mem_append_right _ (List.mem_cons_self _ _)
    exact ⟨QP.parseErrors q, QP.parse_error_of_mem hmem, hmem⟩
  · intro q o s hls hleaf hbad
    have hmem : (⟨"filters.endedAt.start", "Invalid date"⟩ : QP.VError) ∈ QP.parseErrors q := by
      unfold QP.parseErrors QP.fieldErrorLists
      rw [hls]
      refine List.mem_flatten.mpr
        ⟨(QP.chkDateRange "filters.endedAt" (some (QP.PVal.obj o))).1,
          List.mem_cons_of_mem _ (List.mem_cons_self _ _), ?_⟩
      simp only [QP.chkDateRange, hleaf, QP.dateCoerce, hbad]
      exact List.mem_append_left _ (List.mem_cons_self _ _)
    exact ⟨QP.parseErrors q, QP.parse_error_of_mem hmem, hmem⟩
  · intro q o s hls hleaf hbad
    have hmem : (⟨"filters.endedAt.end", "Invalid date"⟩ : QP.VError) ∈ QP.parseErrors q := by
      unfold QP.parseErrors QP.fieldErrorLists
      rw [hls]
      refine List.mem_flatten.mpr
        ⟨(QP.chkDateRange "filters.endedAt" (some (QP.PVal.obj o))).1,
          List.mem_cons_of_mem _ (List.mem_cons_self _ _), ?_⟩
      simp only [QP.chkDateRange, hleaf, QP.dateCoerce, hbad]
      exact List.mem_append_right _ (List.mem_cons_self _ _)
    exact ⟨QP.parseErrors q, QP.parse_error_of_mem hmem, hmem⟩
  · intro q s hls h1 h2
    have hmem : (⟨"filters.hasChildError", "Expected boolean"⟩ : QP.VError) ∈ QP.parseErrors q := by
      unfold QP.parseErrors QP.fieldErrorLists
      rw [hls]
      refine List.mem_flatten.mpr
        ⟨(QP.chkBool "filters.hasChildError" (some (QP.PVal.scalar (QP.QVal.str s)))).1, ?_, ?_⟩
      · simp
      · simp [QP.chkBool, QP.qvalToStr, h1, h2, QP.errAt]
    exact ⟨QP.parseErrors q, QP.parse_error_of_mem hmem, hmem⟩

/-- Witness for C8 (amended): a query with a malformed `startedAt[start]` date and
a malformed `hasChildError` boolean yields errors naming both fields. -/
theorem C8_malformed_rejected_witness :
    QP.jsDateParse "not-a-date" = none ∧
    (∃ E, QP.parseTracesQueryParams
        [(QP.Path.nested "startedAt" "start", QP.QVal.str "not-a-date"),
         (QP.Path.flat "hasChildError", QP.QVal.str "maybe")] = .error E ∧
      (⟨"filters.startedAt.start", "Invalid date"⟩ : QP.VError) ∈ E) ∧
    (∃ E, QP.parseTracesQueryParams
        [(QP.Path.nested "startedAt" "start", QP.QVal.str "not-a-date"),
         (QP.Path.flat "hasChildError", QP.QVal.str "maybe")] = .error E ∧
      (⟨"filters.hasChildError", "Expected boolean"⟩ : QP.VError) ∈ E) :=
  ⟨rfl,
   C8_malformed_rejected.1 _ [("start", QP.QVal.str "not-a-date")] "not-a-date"
     (by decide) (by decide) (by decide),
   C8_malformed_rejected.2.2.2.2 _ "maybe" (by decide) (by decide) (by decide)⟩

/-- Claim C9: `parseTracesQueryParams` fails exactly when some schema field check
produces errors; on failure the returned structured error list contains every
entry of every field's error list — the complete set of field-level errors, not
only the first failure — and on success no field had errors. -/
theorem C9_collect_all_errors (q : QP.Query) :
    ((∃ E, QP.parseTracesQueryParams q = .error E) ↔ ∃ l ∈ QP.fieldErrorLists q, l ≠ []) ∧
    (∀ E, QP.parseTracesQueryParams q = .error E →
      ∀ l ∈ QP.fieldErrorLists q, ∀ e ∈ l, e ∈ E) ∧
    (∀ d, QP.parseTracesQueryParams q = .ok d → ∀ l ∈ QP.fieldErrorLists q, l = []) := by
  by_cases h : (QP.parseErrors q).isEmpty
  · have hnil : QP.parseErrors q = [] := List.isEmpty_iff.mp h
    have hok : QP.parseTracesQueryParams q = .ok (QP.parseData q) := by
      unfold QP.parseTracesQueryParams
      rw [if_pos h]
    have hall : ∀ l ∈ QP.fieldErrorLists q, l = [] := by
      have : (QP.fieldErrorLists q).flatten = [] := hnil
      exact List.flatten_eq_nil_iff.mp this
    refine ⟨?_, ?_, ?_⟩
    · constructor
      · rintro ⟨E, hE⟩
        rw [hok] at hE
        cases hE
      · rintro ⟨l, hl, hne⟩
        exact absurd (hall l hl) hne
    · intro E hE
      rw [hok] at hE
      cases hE
    · intro d _ l hl
      exact hall l hl
  · have hne : QP.parseErrors q ≠ [] := fun hn => h (by simp [hn, List.isEmpty_iff])
    have herr : QP.parseTracesQueryParams q = .error (QP.parseErrors q) :=
      QP.parse_error_of_ne hne
    refine ⟨?_, ?_, ?_⟩
    · constructor
      · intro _
        by_contra hno
        push_neg at hno
        have : ∀ l ∈ QP.fieldErrorLists q, l = [] := hno
        exact hne (List.flatten_eq_nil_iff.mpr this)
      · intro _
        exact ⟨QP.parseErrors q, herr⟩
    · intro E hE l hl e he
      rw [herr] at hE
      cases hE
      exact List.mem_flatten.mpr ⟨l, hl, he⟩
    · intro d hd
      rw [herr] at hd
      cases hd

/-- Witness for C9: a query with a malformed `page` and a malformed
`hasChildError` returns both field errors in one list. -/
theorem C9_collect_all_errors_witness :
    (⟨"pagination.page", "Expected number"⟩ : QP.VError) ∈
      ([⟨"filters.hasChildError", "Expected boolean"⟩,
        ⟨"pagination.page", "Expected number"⟩] : List QP.VError) ∧
    (⟨"filters.hasChildError", "Expected boolean"⟩ : QP.VError) ∈
      ([⟨"filters.hasChildError", "Expected boolean"⟩,
        ⟨"pagination.page", "Expected number"⟩] : List QP.VError) :=
  ⟨(C9_collect_all_errors
      [(QP.Path.flat "page", QP.QVal.str "abc"), (QP.Path.flat "hasChildError", QP.QVal.str "maybe")]).2.1
      _ rfl
      (QP.chkNat "pagination.page" 0 (QP.jsLookup "page" (QP.qsParse
        [(QP.Path.flat "page", QP.QVal.str "abc"), (QP.Path.flat "hasChildError", QP.QVal.str "maybe")]))).1
      (by decide) _ (by decide),
   (C9_collect_all_errors
      [(QP.Path.flat "page", QP.QVal.str "abc"), (QP.Path.flat "hasChildError", QP.QVal.str "maybe")]).2.1
      _ rfl
      (QP.chkBool "filters.hasChildError" (QP.jsLookup "hasChildError" (QP.qsParse
        [(QP.Path.flat "page", QP.QVal.str "abc"), (QP.Path.flat "hasChildError", QP.QVal.str "maybe")]))).1
      (by decide) _ (by decide)⟩

/-- Witness for C2 at a concrete store: an errored span, a running span and a
finished span, filtered by status `"error"`. -/
theorem C2_derived_status_witness :
    ("error" ≠ "") ∧
    ((∀ e d, Obs.derivedStatusSpec e d =
        (if e ≠ none then "error" else if d = none then "running" else "success")) ∧
      Obs.filterSpansByFilter
          [{ Obs.mkSpan "t" "s1" with error := some ⟨"boom"⟩ },
           Obs.mkSpan "t" "s2",
           { Obs.mkSpan "t" "s3" with endedAt := some 9 }]
          (some { Obs.emptyFilter with status := some "error" }) =
        [{ Obs.mkSpan "t" "s1" with error := some ⟨"boom"⟩ },
         Obs.mkSpan "t" "s2",
         { Obs.mkSpan "t" "s3" with endedAt := some 9 }].filter
          (fun s => Obs.derivedStatusSpec s.error s.endedAt == "error")) :=
  ⟨by decide, C2_derived_status _ "error" (by decide)⟩
